import Mathlib

/-!
# Energy and gradient assembly of the Behler-Parrinello water potential

A shallow embedding of `NN_2L2H2O_poly2d_CPU/src/bpnn_main.cpp`: the four evaluation entry points
`get_eng_2h2o` (two coordinate-vector overloads and the file overload) and `get_eng_3h2o`,
together with the constructor of `bpnn_t`.

Conventions of the embedding.

* The working floating point type `T` is a type parameter `R`.  The definitions only use `0`, `+`
  and `*` of `R`, in the order the source applies them; theorems that rearrange sums ask for a
  commutative semiring (exact arithmetic).
* A `std::vector<T>` is a `List R`.  A call has no result (`none`) when the source divides by
  zero (`3 * nd` is zero in `size_t`), reads through a vector iterator past the end, or would
  have to increment an `int` counter beyond `INT_MAX`.
* A raw buffer `T*` is the map from an index to the value stored there; `new T[n]()` is the
  all-zero map.  A matrix `T**` is a contiguous pool read row by row.  Bounds of raw buffers are
  not tracked.
* The base classes `Gfunction_t<T>` and `allNN_t<T>` and the network class are declared outside
  this file.  Their methods are fields of `Collab`, taken as parameters; their members
  `NATOM` and `NCLUSTER` are natural numbers, assumed to fit the counters that run up to them.
* Every call to a collaborator and every message written to `cerr` or `cout` is appended to a
  log, in program order.
* A function-local `static` evaluator is an explicit argument `slot`: `none` before the first
  call, afterwards the evaluator as the previous call left it.
-/

namespace MBbpnnPlugin

/-- Modulus of `size_t` arithmetic. -/
def SIZE_MOD : Nat := 2 ^ 64

/-- Largest value of `int`. -/
def INT_MAX : Nat := 2 ^ 31 - 1

/-- The loop `for (i = 0; i < n; i++) body`, acting on the state `s`. -/
def forLoop {σ : Type} (n : Nat) (body : Nat → σ → σ) (s : σ) : σ :=
  (List.range n).foldl (fun s i => body i s) s

/-- Modelled from the spec: the matrix type behind `init_mtx_in_mem`, which is defined outside
this file.  It is the dense matrix with explicit shape of sections 3 and 9: its rows lie one
after another in one pool, which the source reads through the pointer to row `0`
(`dfdxyz[0]`, `tmp_grd2[0]`). -/
structure Mtx (R : Type) where
  /-- Number of rows. -/
  rows : Nat
  /-- Number of columns. -/
  cols : Nat
  /-- The contiguous pool behind row `0`. -/
  pool : Nat → R

/-- The entry `m[i][j]`. -/
def Mtx.get {R : Type} (m : Mtx R) (i j : Nat) : R := m.pool (i * m.cols + j)

/-- The assignment `m[i][j] = v`. -/
def Mtx.set {R : Type} (m : Mtx R) (i j : Nat) (v : R) : Mtx R :=
  { m with pool := Function.update m.pool (i * m.cols + j) v }

/-- Modelled from the spec: the call `init_mtx_in_mem(data, rows, cols)`, defined outside this
file, makes a fresh zero-filled matrix of the given shape. -/
def init_mtx_in_mem {R : Type} [Zero R] (rows cols : Nat) : Mtx R :=
  { rows := rows, cols := cols, pool := fun _ => 0 }

/-- The members of the base class `Gfunction_t<T>` that `bpnn_main.cpp` reads or writes; the
members it never names are kept in `hidden`. -/
structure Gfunction_t (R GM X : Type) where
  /-- Number of atoms of one configuration. -/
  NATOM : Nat
  /-- Number of configurations of the batch. -/
  NCLUSTER : Nat
  /-- Type index of each atom. -/
  TYPE_EACHATOM : Nat → Nat
  /-- Descriptor matrix of each atom. -/
  G : Nat → GM
  /-- Descriptor length of each atom type. -/
  G_param_max_size : Nat → Nat
  /-- Switch weight of each configuration. -/
  switch_factor : Nat → R
  /-- The gradient tensor. -/
  dfdxyz : Mtx R
  /-- Everything else the base class holds. -/
  hidden : X

/-- Modelled from the spec: one entry of `nets`.  The network class is declared outside this
file; following section 4.2 a network consists of parameters, which `predict` and `backward`
leave alone, and of the forward state cached by the last `predict`. -/
structure Net (P C : Type) where
  /-- Weights and biases. -/
  params : P
  /-- Forward state cached by the last `predict`. -/
  cached : C

/-- The evaluator `bpnn_t<T>`: its two base classes and its own member `energy_`
(`none` is `nullptr`). -/
structure bpnn_t (R GM X P C : Type) where
  /-- Base class `Gfunction_t<T>`. -/
  gf : Gfunction_t R GM X
  /-- Member `nets` of the base class `allNN_t<T>`. -/
  nets : Nat → Net P C
  /-- Per-configuration energies before switching. -/
  energy_ : Option (Nat → R)

/-- What a call does to its surroundings, in program order. -/
inductive Event (R : Type) where
  /-- A line written to `cerr`. -/
  | cerr (msg : String)
  /-- A line written to `cout`. -/
  | cout (msg : String)
  /-- The call `insert_atom(name)`. -/
  | insert_atom (name : String)
  /-- The call `load_seq_2h2o_default()` or `load_seq_3h2o_default()`. -/
  | load_seq (body : Nat)
  /-- The call `load_paramfile_2h2o_default()` or `load_paramfile_3h2o_default()`. -/
  | load_paramfile (body : Nat)
  /-- The call `load_scale_2h2o_default()` or `load_scale_3h2o_default()`. -/
  | load_scale (body : Nat)
  /-- The call `init_allNNs(n, INFILE_2B or INFILE_3B, CHECKCHAR2)`. -/
  | init_allNNs (n body : Nat)
  /-- The call `load_xyz_and_type_from_vectors(nd, allxyz, atoms1)`. -/
  | load_xyz_and_type_from_vectors (nd : Nat) (allxyz : List R) (atoms : List String)
  /-- The call `load_xyzfile(xyzfile)`. -/
  | load_xyzfile (xyzfile : String)
  /-- The call `make_G()`. -/
  | make_G
  /-- The call `cal_switch(n)`. -/
  | cal_switch (n : Nat)
  /-- The call `nets[tp_idx].predict(*G[atom], ...)`. -/
  | predict (tp_idx atom : Nat)
  /-- The call `nets[tp_idx].backward(...)` made in the loop iteration of `atom`. -/
  | backward (tp_idx atom : Nat)
  /-- The call `make_grd(dfdG)`. -/
  | make_grd
  /-- The call `get_dfdx_from_switch(n, energy_)`. -/
  | get_dfdx_from_switch (n : Nat)
  deriving DecidableEq

/-- The code of the repository that `bpnn_main.cpp` calls but does not define: the macro `EUNIT`,
the methods of `Gfunction_t<T>` and `allNN_t<T>`, and the two methods of a network. -/
structure Collab (R GM X P C : Type) where
  /-- The unit conversion macro `EUNIT`. -/
  EUNIT : R
  /-- The default constructor `Gfunction_t<T>()`. -/
  Gfunction_new : Gfunction_t R GM X
  /-- The default constructor `allNN_t<T>()`. -/
  allNN_new : Nat → Net P C
  /-- Method `insert_atom`. -/
  insert_atom : String → Gfunction_t R GM X → Gfunction_t R GM X
  /-- Methods `load_seq_2h2o_default` (`body = 2`) and `load_seq_3h2o_default` (`body = 3`). -/
  load_seq : Nat → Gfunction_t R GM X → Gfunction_t R GM X
  /-- Methods `load_paramfile_2h2o_default` and `load_paramfile_3h2o_default`. -/
  load_paramfile : Nat → Gfunction_t R GM X → Gfunction_t R GM X
  /-- Methods `load_scale_2h2o_default` and `load_scale_3h2o_default`. -/
  load_scale : Nat → Gfunction_t R GM X → Gfunction_t R GM X
  /-- Method `init_allNNs(n, INFILE_2B, CHECKCHAR2)` (`body = 2`) or
  `init_allNNs(n, INFILE_3B, CHECKCHAR2)` (`body = 3`). -/
  init_allNNs : Nat → Nat → (Nat → Net P C) → (Nat → Net P C)
  /-- Method `load_xyz_and_type_from_vectors`. -/
  load_xyz_and_type_from_vectors :
    Nat → List R → List String → Gfunction_t R GM X → Gfunction_t R GM X
  /-- Method `load_xyzfile`. -/
  load_xyzfile : String → Gfunction_t R GM X → Gfunction_t R GM X
  /-- Method `make_G`. -/
  make_G : Gfunction_t R GM X → Gfunction_t R GM X
  /-- Method `cal_switch`. -/
  cal_switch : Nat → Gfunction_t R GM X → Gfunction_t R GM X
  /-- Method `make_grd`, given the per-atom matrices `dfdG`. -/
  make_grd : List (Mtx R) → Gfunction_t R GM X → Gfunction_t R GM X
  /-- Method `get_dfdx_from_switch`, given the topology size and the buffer `energy_`. -/
  get_dfdx_from_switch : Nat → (Nat → R) → Gfunction_t R GM X → Gfunction_t R GM X
  /-- Network method `predict(G, size, N, tmp)`: the new cached forward state and the contents
  of `tmp` after the call. -/
  predict : P → GM → Nat → Nat → C × (Nat → R)
  /-- Network method `backward(seed, N, width, tmp_grd)`: the new cached state and the contents
  of the buffer `tmp_grd` it hands back. -/
  backward : P → C → (Nat → R) → Nat → Nat → C × (Nat → R)

/-- The default constructor `bpnn_t()`. -/
def bpnn_t.default {R GM X P C : Type} (env : Collab R GM X P C) : bpnn_t R GM X P C :=
  { gf := env.Gfunction_new, nets := env.allNN_new, energy_ := none }

/-- The constructor `bpnn_t(tag)`: the evaluator it builds and what it does on the way. -/
def bpnn_t.ctor {R GM X P C : Type} (env : Collab R GM X P C) (tag : String) :
    bpnn_t R GM X P C × List (Event R) :=
  if tag = "2h2o_default" then
    ({ gf := env.load_scale 2 (env.load_paramfile 2 (env.load_seq 2
              (env.insert_atom "H" (env.insert_atom "H" (env.insert_atom "O"
              (env.insert_atom "H" (env.insert_atom "H" (env.insert_atom "O"
                env.Gfunction_new))))))))
       nets := env.init_allNNs 2 2 env.allNN_new
       energy_ := none },
     [Event.cerr " === Initialize default 2B H2O model ... === ",
      Event.insert_atom "O", Event.insert_atom "H", Event.insert_atom "H",
      Event.insert_atom "O", Event.insert_atom "H", Event.insert_atom "H",
      Event.load_seq 2, Event.load_paramfile 2, Event.load_scale 2, Event.init_allNNs 2 2,
      Event.cerr " === Model initialized successfully ! === "])
  else if tag = "3h2o_default" then
    ({ gf := env.load_scale 3 (env.load_paramfile 3 (env.load_seq 3
              (env.insert_atom "H" (env.insert_atom "H" (env.insert_atom "O"
              (env.insert_atom "H" (env.insert_atom "H" (env.insert_atom "O"
              (env.insert_atom "H" (env.insert_atom "H" (env.insert_atom "O"
                env.Gfunction_new)))))))))))
       nets := env.init_allNNs 2 3 env.allNN_new
       energy_ := none },
     [Event.cerr " === Initialize default 3B H2O model ... === ",
      Event.insert_atom "O", Event.insert_atom "H", Event.insert_atom "H",
      Event.insert_atom "O", Event.insert_atom "H", Event.insert_atom "H",
      Event.insert_atom "O", Event.insert_atom "H", Event.insert_atom "H",
      Event.load_seq 3, Event.load_paramfile 3, Event.load_scale 3, Event.init_allNNs 2 3,
      Event.cerr " === Model initialized successfully ! === "])
  else (bpnn_t.default env, [])

/-- A function-local `static` evaluator: built by `make` when control first passes its
declaration (`slot = none`), and reused as it was left by the previous call afterwards. -/
def static_local {R GM X P C : Type} (make : bpnn_t R GM X P C × List (Event R))
    (slot : Option (bpnn_t R GM X P C)) : bpnn_t R GM X P C × List (Event R) :=
  match slot with
  | none => make
  | some obj => (obj, [])

/-- Three times `out.push_back(*it++)` on a vector iterator at position `s.1` of `src`. -/
def push3 {R : Type} (src : List R) (s : Nat × List R) : Option (Nat × List R) :=
  match src[s.1]?, src[s.1 + 1]?, src[s.1 + 2]? with
  | some x, some y, some z => some (s.1 + 3, s.2 ++ [x, y, z])
  | _, _, _ => none

/-- The loop `for (int j = 0; j < a; j++)` around `push3`; the first argument counts the
iterations still to run. -/
def copy_atoms {R : Type} (src : List R) : Nat → Nat × List R → Option (Nat × List R)
  | 0, s => some s
  | a + 1, s => (push3 src s).bind (copy_atoms src a)

/-- The loop `for (size_t i = 0; i < nd; i++)` that builds `allxyz`, on the state
`(it1, it2, allxyz)`; the count argument is the number of iterations still to run. -/
def interleave {R : Type} (xyz1 xyz2 : List R) (a1 a2 : Nat) :
    Nat → Nat × Nat × List R → Option (Nat × Nat × List R)
  | 0, s => some s
  | n + 1, (it1, it2, allxyz) =>
    (copy_atoms xyz1 a1 (it1, allxyz)).bind fun p1 =>
    (copy_atoms xyz2 a2 (it2, p1.2)).bind fun p2 =>
    interleave xyz1 xyz2 a1 a2 n (p1.1, p2.1, p2.2)

/-- The label check of the two coordinate-vector overloads: the warnings written to `cerr` and
the value of `atoms1` afterwards. -/
def label_check {R : Type} (a1 a2 : Nat) (atoms1 atoms2 : List String) :
    List (Event R) × List String :=
  if atoms1.isEmpty then ([], atoms1)
  else
    ((if a1 ≠ atoms1.length then [Event.cerr " Molecule 1 type inconsistent! "] else []) ++
     (if a2 ≠ atoms2.length then [Event.cerr " Molecule 2 type inconsistent! "] else []),
     atoms1 ++ atoms2)

/-- What the shared opening of the two coordinate-vector overloads computes. -/
structure Gathered (R : Type) where
  /-- Atoms per configuration of molecule 1. -/
  a1 : Nat
  /-- Atoms per configuration of molecule 2. -/
  a2 : Nat
  /-- Warnings written to `cerr`. -/
  warnings : List (Event R)
  /-- The label list `atoms1` after the check. -/
  atoms : List String
  /-- The combined coordinate buffer. -/
  allxyz : List R

/-- Lines 76-102 and 146-172: `a1`, `a2` in `size_t` arithmetic, the label check and the
combined buffer.  There is no result when `3 * nd` is zero in `size_t` (division by zero), when
an `int` counter would have to pass `INT_MAX`, or when an iterator is read past the end. -/
def gather {R : Type} (nd : Nat) (xyz1 xyz2 : List R) (atoms1 atoms2 : List String) :
    Option (Gathered R) :=
  if 3 * nd % SIZE_MOD = 0 then none
  else
    let a1 := xyz1.length / (3 * nd % SIZE_MOD)
    let a2 := xyz2.length / (3 * nd % SIZE_MOD)
    let chk : List (Event R) × List String := label_check a1 a2 atoms1 atoms2
    if INT_MAX < a1 ∨ INT_MAX < a2 then none
    else
      (interleave xyz1 xyz2 a1 a2 nd (0, 0, [])).map fun s =>
        { a1 := a1, a2 := a2, warnings := chk.1, atoms := chk.2, allxyz := s.2.2 }

/-- The calls `load_xyz_and_type_from_vectors(nd, allxyz, atoms1); make_G(); cal_switch(2);`. -/
def prepared {R GM X P C : Type} (env : Collab R GM X P C) (nd : Nat) (allxyz : List R)
    (atoms : List String) (gf : Gfunction_t R GM X) : Gfunction_t R GM X :=
  env.cal_switch 2 (env.make_G (env.load_xyz_and_type_from_vectors nd allxyz atoms gf))

/-- State of the loop over the atoms. -/
structure Sweep (R P C : Type) where
  /-- The networks. -/
  nets : Nat → Net P C
  /-- The buffer `energy_`. -/
  energy_ : Nat → R
  /-- The vector `dfdG`. -/
  dfdG : List (Mtx R)
  /-- Calls made so far. -/
  log : List (Event R)

/-- The loop `for (int i = 0; i < NCLUSTER; i++) energy_[i] += tmp[i];`. -/
def add_tmp {R : Type} [Add R] (NCLUSTER : Nat) (tmp : Nat → R) (energy_ : Nat → R) : Nat → R :=
  forLoop NCLUSTER (fun i e => Function.update e i (e i + tmp i)) energy_

/-- The forward half of one iteration of the loop over the atoms: `predict` on the network of
the atom's type with the atom's descriptor matrix, then accumulation into `energy_`. -/
def predict_atom {R GM X P C : Type} [Add R] (env : Collab R GM X P C) (gf : Gfunction_t R GM X)
    (atom : Nat) (s : Sweep R P C) : Sweep R P C :=
  let tp_idx := gf.TYPE_EACHATOM atom
  let out := env.predict (s.nets tp_idx).params (gf.G atom) (gf.G_param_max_size tp_idx)
    gf.NCLUSTER
  { s with
    nets := Function.update s.nets tp_idx { params := (s.nets tp_idx).params, cached := out.1 }
    energy_ := add_tmp gf.NCLUSTER out.2 s.energy_
    log := s.log ++ [Event.predict tp_idx atom] }

/-- The call `copy(tmp_grd, tmp_grd + n, m[0])`. -/
def copy_into {R : Type} (n : Nat) (tmp_grd : Nat → R) (m : Mtx R) : Mtx R :=
  { m with pool := fun k => if k < n then tmp_grd k else m.pool k }

/-- The backward half: `backward` on the network of the atom's type, seeded by `switch_factor`
with width `1`, and the copy of its result into a fresh matrix with `cols` columns that is pushed
onto `dfdG`. -/
def backward_atom {R GM X P C : Type} [Zero R] (env : Collab R GM X P C)
    (gf : Gfunction_t R GM X) (cols : Nat) (atom : Nat) (s : Sweep R P C) : Sweep R P C :=
  let tp_idx := gf.TYPE_EACHATOM atom
  let out := env.backward (s.nets tp_idx).params (s.nets tp_idx).cached gf.switch_factor
    gf.NCLUSTER 1
  let tmp_grd2 := copy_into (cols * gf.G_param_max_size tp_idx) out.2
    (init_mtx_in_mem (gf.G_param_max_size tp_idx) cols)
  { s with
    nets := Function.update s.nets tp_idx { params := (s.nets tp_idx).params, cached := out.1 }
    dfdG := s.dfdG ++ [tmp_grd2]
    log := s.log ++ [Event.backward tp_idx atom] }

/-- The loop `for (i = 0; i < NCLUSTER; i++) energy += energy_[i] * switch_factor[i];`
started from `energy = 0`. -/
def switched_sum {R GM X : Type} [Zero R] [Add R] [Mul R] (gf : Gfunction_t R GM X)
    (energy_ : Nat → R) : R :=
  forLoop gf.NCLUSTER (fun i energy => energy + energy_ i * gf.switch_factor i) 0

/-- What a call returns and leaves behind. -/
structure Call (R GM X P C : Type) where
  /-- The returned energy. -/
  energy : R
  /-- The matrices pushed onto the local vector `dfdG`, if any. -/
  dfdG : List (Mtx R)
  /-- The static evaluator after the call. -/
  obj : bpnn_t R GM X P C
  /-- Collaborator calls and messages, in program order. -/
  log : List (Event R)

/-- The overload `get_eng_2h2o(nd, xyz1, xyz2, atoms1, atoms2)`; `slot` is the state of its
static evaluator before the call. -/
def get_eng_2h2o {R GM X P C : Type} [Zero R] [Add R] [Mul R] (env : Collab R GM X P C)
    (slot : Option (bpnn_t R GM X P C)) (nd : Nat) (xyz1 xyz2 : List R)
    (atoms1 atoms2 : List String) : Option (Call R GM X P C) :=
  let bpnn_2h2o := static_local (bpnn_t.ctor env "2h2o_default") slot
  (gather nd xyz1 xyz2 atoms1 atoms2).map fun inp =>
    let gf := prepared env nd inp.allxyz inp.atoms bpnn_2h2o.1.gf
    let s := forLoop gf.NATOM (predict_atom env gf)
      { nets := bpnn_2h2o.1.nets, energy_ := fun _ => 0, dfdG := [], log := [] }
    let energy := switched_sum gf s.energy_
    { energy := energy * env.EUNIT
      dfdG := s.dfdG
      obj := { gf := gf, nets := s.nets, energy_ := some s.energy_ }
      log := bpnn_2h2o.2 ++ inp.warnings ++
        [Event.load_xyz_and_type_from_vectors nd inp.allxyz inp.atoms, Event.make_G,
         Event.cal_switch 2] ++ s.log }

/-- Three times `out.push_back(*grd++)` on the raw pointer `grd` into the pool of `dfdxyz`,
repeated `a` times (`for (int j = 0; j < a; j++)`). -/
def pull_atoms {R : Type} (pool : Nat → R) : Nat → Nat × List R → Nat × List R
  | 0, s => s
  | a + 1, s =>
    pull_atoms pool a (s.1 + 3, s.2 ++ [pool s.1, pool (s.1 + 1), pool (s.1 + 2)])

/-- The loop `for (size_t i = 0; i < nd; i++)` that fills `grad1` and `grad2` from
`grd = dfdxyz[0]`, on the state `(grd, grad1, grad2)`; the count argument is the number of
iterations still to run. -/
def deinterleave {R : Type} (pool : Nat → R) (a1 a2 : Nat) :
    Nat → Nat × List R × List R → Nat × List R × List R
  | 0, s => s
  | n + 1, (grd, grad1, grad2) =>
    deinterleave pool a1 a2 n
      ((pull_atoms pool a2 ((pull_atoms pool a1 (grd, grad1)).1, grad2)).1,
       (pull_atoms pool a1 (grd, grad1)).2,
       (pull_atoms pool a2 ((pull_atoms pool a1 (grd, grad1)).1, grad2)).2)

/-- The double loop `for i < NATOM*3, for j < NCLUSTER: dfdxyz[i][j] *= EUNIT`. -/
def scale_dfdxyz {R GM X : Type} [Mul R] (EUNIT : R) (gf : Gfunction_t R GM X) :
    Gfunction_t R GM X :=
  { gf with
    dfdxyz := forLoop (gf.NATOM * 3)
      (fun i m => forLoop gf.NCLUSTER (fun j m => m.set i j (m.get i j * EUNIT)) m) gf.dfdxyz }

/-- The gradient assembly after the energy is known: a fresh `dfdxyz` of `NATOM*3` rows and
`NCLUSTER` columns, `make_grd(dfdG)`, `get_dfdx_from_switch(n, energy_)`, and the scaling by
`EUNIT`. -/
def assemble {R GM X P C : Type} [Zero R] [Mul R] (env : Collab R GM X P C) (n : Nat)
    (dfdG : List (Mtx R)) (energy_ : Nat → R) (gf : Gfunction_t R GM X) : Gfunction_t R GM X :=
  scale_dfdxyz env.EUNIT
    (env.get_dfdx_from_switch n energy_
      (env.make_grd dfdG { gf with dfdxyz := init_mtx_in_mem (gf.NATOM * 3) gf.NCLUSTER }))

/-- What the gradient-returning overload returns and leaves behind. -/
structure GradCall (R GM X P C : Type) where
  /-- The returned energy. -/
  energy : R
  /-- The vector `grad1` after the call. -/
  grad1 : List R
  /-- The vector `grad2` after the call. -/
  grad2 : List R
  /-- The matrices pushed onto the local vector `dfdG`. -/
  dfdG : List (Mtx R)
  /-- The static evaluator after the call. -/
  obj : bpnn_t R GM X P C
  /-- Collaborator calls and messages, in program order. -/
  log : List (Event R)

/-- The overload `get_eng_2h2o(nd, xyz1, xyz2, grad1, grad2, atoms1, atoms2)`; `slot` is the
state of its static evaluator before the call, `grad1` and `grad2` are the contents of the two
output vectors before the call. -/
def get_eng_2h2o_grad {R GM X P C : Type} [Zero R] [Add R] [Mul R] (env : Collab R GM X P C)
    (slot : Option (bpnn_t R GM X P C)) (nd : Nat) (xyz1 xyz2 grad1 grad2 : List R)
    (atoms1 atoms2 : List String) : Option (GradCall R GM X P C) :=
  let bpnn_2h2o := static_local (bpnn_t.ctor env "2h2o_default") slot
  (gather nd xyz1 xyz2 atoms1 atoms2).map fun inp =>
    let gf := prepared env nd inp.allxyz inp.atoms bpnn_2h2o.1.gf
    let s := forLoop gf.NATOM
      (fun atom s => backward_atom env gf nd atom (predict_atom env gf atom s))
      { nets := bpnn_2h2o.1.nets, energy_ := fun _ => 0, dfdG := [], log := [] }
    let energy := switched_sum gf s.energy_
    let gf4 := assemble env 2 s.dfdG s.energy_ gf
    let out := deinterleave gf4.dfdxyz.pool inp.a1 inp.a2 nd (0, grad1, grad2)
    { energy := energy * env.EUNIT
      grad1 := out.2.1
      grad2 := out.2.2
      dfdG := s.dfdG
      obj := { gf := gf4, nets := s.nets, energy_ := some s.energy_ }
      log := bpnn_2h2o.2 ++ inp.warnings ++
        [Event.load_xyz_and_type_from_vectors nd inp.allxyz inp.atoms, Event.make_G,
         Event.cal_switch 2] ++ s.log ++ [Event.make_grd, Event.get_dfdx_from_switch 2] }

/-- The common text of `get_eng_2h2o(xyzfile, ifgrad)` and `get_eng_3h2o(xyzfile, ifgrad)`.
The two functions differ in the loaders they call (`body`), in the argument of `cal_switch`
(`switch_n`) and in the first argument of `get_dfdx_from_switch` (`dfdx_n`). -/
def file_eval {R GM X P C : Type} [Zero R] [Add R] [Mul R] (env : Collab R GM X P C)
    (body switch_n dfdx_n : Nat) (slot : Option (bpnn_t R GM X P C)) (xyzfile : String)
    (ifgrad : Bool) : Call R GM X P C :=
  let bpnn := static_local (bpnn_t.default env, []) slot
  let gf := env.cal_switch switch_n (env.make_G (env.load_scale body (env.load_paramfile body
    (env.load_seq body (env.load_xyzfile xyzfile bpnn.1.gf)))))
  let nets := env.init_allNNs 2 body bpnn.1.nets
  let s := forLoop gf.NATOM (predict_atom env gf)
    { nets := nets, energy_ := fun _ => 0, dfdG := [], log := [] }
  let energy := switched_sum gf s.energy_
  let opening : List (Event R) := bpnn.2 ++
    [Event.load_xyzfile xyzfile, Event.load_seq body, Event.load_paramfile body,
     Event.load_scale body, Event.init_allNNs 2 body, Event.make_G, Event.cal_switch switch_n]
  if ifgrad then
    let b := forLoop gf.NATOM (backward_atom env gf gf.NCLUSTER) { s with log := [] }
    { energy := energy * env.EUNIT
      dfdG := b.dfdG
      obj := { gf := assemble env dfdx_n b.dfdG s.energy_ gf, nets := b.nets,
               energy_ := some s.energy_ }
      log := opening ++ s.log ++ b.log ++
        [Event.make_grd, Event.get_dfdx_from_switch dfdx_n,
         Event.cout " gradient is done, but not returned "] }
  else
    { energy := energy * env.EUNIT
      dfdG := s.dfdG
      obj := { gf := gf, nets := s.nets, energy_ := some s.energy_ }
      log := opening ++ s.log }

/-- The entry point `get_eng_2h2o(xyzfile, ifgrad)`: loaders of the 2-body model,
`cal_switch(2)`, `get_dfdx_from_switch(2, energy_)`. -/
def get_eng_2h2o_file {R GM X P C : Type} [Zero R] [Add R] [Mul R] (env : Collab R GM X P C)
    (slot : Option (bpnn_t R GM X P C)) (xyzfile : String) (ifgrad : Bool) : Call R GM X P C :=
  file_eval env 2 2 2 slot xyzfile ifgrad

/-- The entry point `get_eng_3h2o(xyzfile, ifgrad)`: loaders of the 3-body model,
`cal_switch(3)`, `get_dfdx_from_switch(2, energy_)`. -/
def get_eng_3h2o {R GM X P C : Type} [Zero R] [Add R] [Mul R] (env : Collab R GM X P C)
    (slot : Option (bpnn_t R GM X P C)) (xyzfile : String) (ifgrad : Bool) : Call R GM X P C :=
  file_eval env 3 3 2 slot xyzfile ifgrad

/-! ## Quantities the statements refer to -/

/-- The result of `nets[TYPE_EACHATOM[atom]].predict(*G[atom], ...)` on the networks `nets`:
the forward state it caches and the per-configuration outputs. -/
def atom_out {R GM X P C : Type} (env : Collab R GM X P C) (gf : Gfunction_t R GM X)
    (nets : Nat → Net P C) (atom : Nat) : C × (Nat → R) :=
  env.predict (nets (gf.TYPE_EACHATOM atom)).params (gf.G atom)
    (gf.G_param_max_size (gf.TYPE_EACHATOM atom)) gf.NCLUSTER

/-- The matrix pushed onto `dfdG` when `backward` runs on the network of `atom` while that
network holds the forward state `cached`. -/
def grd_of {R GM X P C : Type} [Zero R] (env : Collab R GM X P C) (gf : Gfunction_t R GM X)
    (cols : Nat) (nets : Nat → Net P C) (atom : Nat) (cached : C) : Mtx R :=
  copy_into (cols * gf.G_param_max_size (gf.TYPE_EACHATOM atom))
    (env.backward (nets (gf.TYPE_EACHATOM atom)).params cached gf.switch_factor gf.NCLUSTER 1).2
    (init_mtx_in_mem (gf.G_param_max_size (gf.TYPE_EACHATOM atom)) cols)

/-- The network calls of a log. -/
def Event.isNetCall {R : Type} : Event R → Bool
  | Event.predict _ _ => true
  | Event.backward _ _ => true
  | _ => false

/-- The evaluator a coordinate-vector overload works on: its static local, built on first use. -/
def evaluator {R GM X P C : Type} (env : Collab R GM X P C) (slot : Option (bpnn_t R GM X P C)) :
    bpnn_t R GM X P C :=
  (static_local (bpnn_t.ctor env "2h2o_default") slot).1

/-- The `i`-th run of `m` consecutive values of `xs`. -/
def chunk {R : Type} (xs : List R) (m i : Nat) : List R := (xs.drop (i * m)).take m

/-- The coordinates of configuration `i` in a buffer that holds `nd` configurations. -/
def block {R : Type} (allxyz : List R) (nd i : Nat) : List R :=
  chunk allxyz (allxyz.length / nd) i

/-! ## A concrete instance of the collaborators

Integer arithmetic, one descriptor value per atom and configuration (the first coordinate of the
atom), networks that multiply by a weight and cache the descriptor they were given.  A file named
`trimer.xyz` holds one water trimer, any other file one water dimer, atoms in the order
O H H of each molecule. -/

/-- Collaborators over the integers, small enough to evaluate every entry point. -/
def demo : Collab ℤ (Nat → ℤ) (List ℤ) ℤ (Nat → ℤ) where
  EUNIT := 3
  Gfunction_new :=
    { NATOM := 0, NCLUSTER := 0, TYPE_EACHATOM := fun _ => 0, G := fun _ _ => 0,
      G_param_max_size := fun _ => 1, switch_factor := fun _ => 0,
      dfdxyz := init_mtx_in_mem 0 0, hidden := [] }
  allNN_new := fun _ => { params := 0, cached := fun _ => 0 }
  insert_atom := fun name gf =>
    { gf with
      NATOM := gf.NATOM + 1
      TYPE_EACHATOM := Function.update gf.TYPE_EACHATOM gf.NATOM (if name = "O" then 0 else 1) }
  load_seq := fun _ gf => gf
  load_paramfile := fun _ gf => gf
  load_scale := fun _ gf => gf
  init_allNNs := fun _ body nets tp => { params := (tp : ℤ) + body, cached := (nets tp).cached }
  load_xyz_and_type_from_vectors := fun nd allxyz _ gf =>
    { gf with NCLUSTER := nd, hidden := allxyz }
  load_xyzfile := fun xyzfile gf =>
    { gf with
      NATOM := if xyzfile = "trimer.xyz" then 9 else 6
      TYPE_EACHATOM := fun a => if a % 3 = 0 then 0 else 1
      NCLUSTER := 1
      hidden := List.take (if xyzfile = "trimer.xyz" then 27 else 18)
        [1, 0, 0, 2, 0, 0, 3, 0, 0, 4, 0, 0, 5, 0, 0, 6, 0, 0, 7, 0, 0, 8, 0, 0, 9, 0, 0] }
  make_G := fun gf =>
    { gf with G := fun atom i => (block gf.hidden gf.NCLUSTER i).getD (3 * atom) 0 }
  cal_switch := fun n gf =>
    { gf with switch_factor := fun i => n + (block gf.hidden gf.NCLUSTER i).headD 0 }
  make_grd := fun dfdG gf =>
    { gf with
      dfdxyz :=
        { gf.dfdxyz with
          pool := fun k => gf.dfdxyz.pool k +
            (dfdG.getD (k / gf.dfdxyz.cols / 3) (init_mtx_in_mem 0 0)).pool
              (k % gf.dfdxyz.cols) } }
  get_dfdx_from_switch := fun n e gf =>
    { gf with
      dfdxyz := { gf.dfdxyz with pool := fun k => gf.dfdxyz.pool k + n * e (k % gf.dfdxyz.cols) } }
  predict := fun p g _ _ => (g, fun i => p * g i)
  backward := fun p c seed _ _ => (c, fun k => p * c k * seed k)

/-- Coordinates of molecule 1 in two configurations (three atoms each). -/
def demo_xyz1 : List ℤ := [1, 0, 0, 2, 0, 0, 3, 0, 0, 7, 0, 0, 8, 0, 0, 9, 0, 0]

/-- Coordinates of molecule 2 in two configurations (three atoms each). -/
def demo_xyz2 : List ℤ := [4, 0, 0, 5, 0, 0, 6, 0, 0, 10, 0, 0, 11, 0, 0, 12, 0, 0]

/-- The energy formula of the entry points on a loaded evaluator state: the switched sum of the
per-configuration sums of the network outputs, times `EUNIT`. -/
def energy_of {R GM X P C : Type} [Zero R] [Add R] [Mul R] (env : Collab R GM X P C)
    (gf : Gfunction_t R GM X) (nets : Nat → Net P C) : R :=
  switched_sum gf
    (fun i => forLoop gf.NATOM (fun atom acc => acc + (atom_out env gf nets atom).2 i) 0)
    * env.EUNIT

/-- The label list the coordinate-vector overloads hand to `load_xyz_and_type_from_vectors`. -/
def passed_labels (atoms1 atoms2 : List String) : List String :=
  if atoms1.isEmpty then atoms1 else atoms1 ++ atoms2

/-- The assumption that `make_G`, `predict` and `cal_switch` act on each configuration (column)
on its own, for the label list `labels` and the evaluators singled out by `Good`: after `nd`
configurations have been loaded the evaluator holds `nd` columns and `natom` atoms, the output
of `predict` for `atom` in column `i` is a function `atomE atom` of the coordinates of
configuration `i` alone, and so is the switch weight of column `i` (`sw`). -/
structure PerConfiguration {R GM X P C : Type} (env : Collab R GM X P C) (labels : List String)
    (Good : bpnn_t R GM X P C → Prop) (natom : Nat) (atomE : Nat → List R → R)
    (sw : List R → R) : Prop where
  /-- The batch has one column per configuration. -/
  ncluster : ∀ obj nd allxyz, Good obj →
    (prepared env nd allxyz labels obj.gf).NCLUSTER = nd
  /-- The number of atoms is that of the model. -/
  natom_eq : ∀ obj nd allxyz, Good obj →
    (prepared env nd allxyz labels obj.gf).NATOM = natom
  /-- Column `i` of the output of `predict` depends on configuration `i` only. -/
  atomic : ∀ obj nd allxyz, Good obj → ∀ atom i, atom < natom → i < nd →
    (atom_out env (prepared env nd allxyz labels obj.gf) obj.nets atom).2 i
      = atomE atom (block allxyz nd i)
  /-- The switch weight of column `i` depends on configuration `i` only. -/
  switch : ∀ obj nd allxyz, Good obj → ∀ i, i < nd →
    (prepared env nd allxyz labels obj.gf).switch_factor i = sw (block allxyz nd i)

/-- The switched energy of one configuration with coordinates `blk`, under `PerConfiguration`. -/
def config_term {R : Type} [CommSemiring R] (natom : Nat) (atomE : Nat → List R → R)
    (sw : List R → R) (blk : List R) : R :=
  (∑ atom ∈ Finset.range natom, atomE atom blk) * sw blk

/-- The buffer made of the blocks of `m` values of `xs`, reordered by the permutation `σ` of the
`nd` configurations: block `i` of the result is block `σ i` of `xs`. -/
def permute_blocks {R : Type} (xs : List R) (m nd : Nat) (σ : Equiv.Perm (Fin nd)) : List R :=
  (List.range nd).flatMap fun i => if h : i < nd then chunk xs m (σ ⟨i, h⟩) else []

/-- Evaluators of the concrete instance that hold the model its constructor builds: six atoms,
their types, and the network parameters. -/
def demo_good (obj : bpnn_t ℤ (Nat → ℤ) (List ℤ) ℤ (Nat → ℤ)) : Prop :=
  obj.gf.NATOM = 6 ∧
  obj.gf.TYPE_EACHATOM = (evaluator demo none).gf.TYPE_EACHATOM ∧
  ∀ tp, (obj.nets tp).params = ((evaluator demo none).nets tp).params

/-- Output of the network of `atom` on the concrete instance, from the coordinates of one
configuration. -/
def demo_atomE (atom : Nat) (blk : List ℤ) : ℤ :=
  ((evaluator demo none).nets ((evaluator demo none).gf.TYPE_EACHATOM atom)).params
    * blk.getD (3 * atom) 0

/-- Switch weight on the concrete instance, from the coordinates of one configuration. -/
def demo_sw (blk : List ℤ) : ℤ := 2 + blk.headD 0

/-! ## Sequences of calls -/

/-- The loads of model data: atom sequence, descriptor parameters, scaling bounds and network
weights. -/
def Event.isLoad {R : Type} : Event R → Bool
  | Event.load_seq _ => true
  | Event.load_paramfile _ => true
  | Event.load_scale _ => true
  | Event.init_allNNs _ _ => true
  | _ => false

/-- One round of loads of the model for `body` molecules. -/
def model_loads (R : Type) (body : Nat) : List (Event R) :=
  [Event.load_seq body, Event.load_paramfile body, Event.load_scale body,
   Event.init_allNNs 2 body]

/-- The arguments of one call of a coordinate-vector overload. -/
structure VecArgs (R : Type) where
  /-- Number of configurations. -/
  nd : Nat
  /-- Coordinates of molecule 1. -/
  xyz1 : List R
  /-- Coordinates of molecule 2. -/
  xyz2 : List R
  /-- Labels of molecule 1. -/
  atoms1 : List String
  /-- Labels of molecule 2. -/
  atoms2 : List String

/-- Successive calls of the overload without gradients in one process: each call finds the
static evaluator as the call before left it.  The result is the evaluator after the last call
and the log of all calls; there is none when one of the calls has none. -/
def calls_2h2o {R GM X P C : Type} [Zero R] [Add R] [Mul R] (env : Collab R GM X P C) :
    List (VecArgs R) → Option (bpnn_t R GM X P C) →
      Option (Option (bpnn_t R GM X P C) × List (Event R))
  | [], slot => some (slot, [])
  | a :: rest, slot =>
    (get_eng_2h2o env slot a.nd a.xyz1 a.xyz2 a.atoms1 a.atoms2).bind fun r =>
      (calls_2h2o env rest (some r.obj)).map fun p => (p.1, r.log ++ p.2)

/-- Successive calls of the gradient-returning overload in one process, on the same two output
vectors (as in `main_bak`): the state is the static evaluator, `grad1` and `grad2`. -/
def calls_2h2o_grad {R GM X P C : Type} [Zero R] [Add R] [Mul R] (env : Collab R GM X P C) :
    List (VecArgs R) → Option (bpnn_t R GM X P C) × List R × List R →
      Option ((Option (bpnn_t R GM X P C) × List R × List R) × List (Event R))
  | [], s => some (s, [])
  | a :: rest, s =>
    (get_eng_2h2o_grad env s.1 a.nd a.xyz1 a.xyz2 s.2.1 s.2.2 a.atoms1 a.atoms2).bind fun g =>
      (calls_2h2o_grad env rest (some g.obj, g.grad1, g.grad2)).map fun p =>
        (p.1, g.log ++ p.2)

/-- Successive calls of a file entry point `entry` in one process, each with its file name and
its flag `ifgrad`. -/
def calls_file {R GM X P C : Type}
    (entry : Option (bpnn_t R GM X P C) → String → Bool → Call R GM X P C) :
    List (String × Bool) → Option (bpnn_t R GM X P C) →
      Option (bpnn_t R GM X P C) × List (Event R)
  | [], slot => (slot, [])
  | a :: rest, slot =>
    ((calls_file entry rest (some (entry slot a.1 a.2).obj)).1,
     (entry slot a.1 a.2).log ++ (calls_file entry rest (some (entry slot a.1 a.2).obj)).2)

/-- The first dimer of the concrete batch, as arguments of a call. -/
def demo_args : VecArgs ℤ :=
  { nd := 2, xyz1 := demo_xyz1, xyz2 := demo_xyz2, atoms1 := [], atoms2 := [] }

/-! ## Loops -/

theorem forLoop_zero {σ : Type} (body : Nat → σ → σ) (s : σ) : forLoop 0 body s = s := by
  simp [forLoop]

theorem forLoop_succ {σ : Type} (n : Nat) (body : Nat → σ → σ) (s : σ) :
    forLoop (n + 1) body s = body n (forLoop n body s) := by
  simp [forLoop, List.range_succ, List.foldl_append]

/-- Two loops whose bodies agree on the indices they run through do the same. -/
theorem forLoop_congr {σ : Type} (n : Nat) (f g : Nat → σ → σ) (s : σ)
    (h : ∀ i, i < n → ∀ t, f i t = g i t) : forLoop n f s = forLoop n g s := by
  induction n with
  | zero => simp [forLoop_zero]
  | succ n ih =>
    rw [forLoop_succ, forLoop_succ, ih (fun i hi t => h i (Nat.lt_succ_of_lt hi) t)]
    exact h n (Nat.lt_succ_self n) _

/-- An accumulating loop is a finite sum, in exact arithmetic. -/
theorem forLoop_add_eq_sum {R : Type} [AddCommMonoid R] (n : Nat) (f : Nat → R) :
    forLoop n (fun i acc => acc + f i) 0 = ∑ i in Finset.range n, f i := by
  induction n with
  | zero => simp [forLoop_zero]
  | succ n ih => rw [forLoop_succ, ih, Finset.sum_range_succ]

/-- The accumulation loop adds `tmp[i]` to `energy_[i]` for `i < NCLUSTER` and touches nothing
else. -/
theorem add_tmp_apply {R : Type} [Add R] (N : Nat) (tmp e : Nat → R) (i : Nat) :
    add_tmp N tmp e i = if i < N then e i + tmp i else e i := by
  unfold add_tmp
  induction N with
  | zero => simp [forLoop_zero]
  | succ N ih =>
    rw [forLoop_succ]
    by_cases hi : i = N
    · subst hi
      have hN : forLoop i (fun i e => Function.update e i (e i + tmp i)) e i = e i := by
        rw [ih]; simp
      simp [hN]
    · rw [Function.update_noteq hi, ih]
      by_cases h1 : i < N
      · simp [h1, Nat.lt_succ_of_lt h1]
      · have h2 : ¬ i < N + 1 := by omega
        simp [h1, h2]


/-! ## The loop over the atoms -/

section sweep

variable {R GM X P C : Type}

theorem atom_out_congr (env : Collab R GM X P C) (gf : Gfunction_t R GM X)
    (n1 n2 : Nat → Net P C) (h : ∀ tp, (n1 tp).params = (n2 tp).params) (atom : Nat) :
    atom_out env gf n1 atom = atom_out env gf n2 atom := by
  unfold atom_out; rw [h]

theorem predict_atom_params [Add R] (env : Collab R GM X P C) (gf : Gfunction_t R GM X)
    (atom : Nat) (s : Sweep R P C) (tp : Nat) :
    ((predict_atom env gf atom s).nets tp).params = (s.nets tp).params := by
  unfold predict_atom
  by_cases h : tp = gf.TYPE_EACHATOM atom
  · subst h; simp
  · simp [Function.update_noteq h]

theorem backward_atom_params [Zero R] (env : Collab R GM X P C) (gf : Gfunction_t R GM X)
    (cols atom : Nat) (s : Sweep R P C) (tp : Nat) :
    ((backward_atom env gf cols atom s).nets tp).params = (s.nets tp).params := by
  unfold backward_atom
  by_cases h : tp = gf.TYPE_EACHATOM atom
  · subst h; simp
  · simp [Function.update_noteq h]

/-- A loop over the atoms whose body keeps the parameters keeps them. -/
theorem sweep_params (body : Nat → Sweep R P C → Sweep R P C)
    (hpar : ∀ atom s tp, ((body atom s).nets tp).params = (s.nets tp).params)
    (n : Nat) (s : Sweep R P C) (tp : Nat) :
    ((forLoop n body s).nets tp).params = (s.nets tp).params := by
  induction n with
  | zero => simp [forLoop_zero]
  | succ n ih => rw [forLoop_succ, hpar, ih]

/-- A loop over the atoms whose body accumulates the output of `predict` leaves in `energy_[i]`
what it held before plus the outputs of the atoms, added in the order of the atoms. -/
theorem sweep_energy [Add R] (env : Collab R GM X P C) (gf : Gfunction_t R GM X)
    (body : Nat → Sweep R P C → Sweep R P C)
    (hpar : ∀ atom s tp, ((body atom s).nets tp).params = (s.nets tp).params)
    (hen : ∀ atom s, (body atom s).energy_
      = add_tmp gf.NCLUSTER (atom_out env gf s.nets atom).2 s.energy_)
    (n : Nat) (s : Sweep R P C) (i : Nat) :
    (forLoop n body s).energy_ i =
      if i < gf.NCLUSTER then
        forLoop n (fun atom acc => acc + (atom_out env gf s.nets atom).2 i) (s.energy_ i)
      else s.energy_ i := by
  induction n with
  | zero => simp [forLoop_zero]
  | succ n ih =>
    rw [forLoop_succ, hen, add_tmp_apply, ih, forLoop_succ,
      atom_out_congr env gf _ s.nets (sweep_params body hpar n s)]
    by_cases hi : i < gf.NCLUSTER <;> simp [hi]

theorem predict_atom_energy [Add R] (env : Collab R GM X P C) (gf : Gfunction_t R GM X)
    (atom : Nat) (s : Sweep R P C) :
    (predict_atom env gf atom s).energy_
      = add_tmp gf.NCLUSTER (atom_out env gf s.nets atom).2 s.energy_ := rfl

theorem grad_body_energy [Zero R] [Add R] (env : Collab R GM X P C) (gf : Gfunction_t R GM X)
    (cols atom : Nat) (s : Sweep R P C) :
    (backward_atom env gf cols atom (predict_atom env gf atom s)).energy_
      = add_tmp gf.NCLUSTER (atom_out env gf s.nets atom).2 s.energy_ := rfl

theorem grad_body_params [Zero R] [Add R] (env : Collab R GM X P C) (gf : Gfunction_t R GM X)
    (cols atom : Nat) (s : Sweep R P C) (tp : Nat) :
    ((backward_atom env gf cols atom (predict_atom env gf atom s)).nets tp).params
      = (s.nets tp).params := by
  rw [backward_atom_params, predict_atom_params]

/-- The switched sum only reads `energy_[i]` for `i < NCLUSTER`. -/
theorem switched_sum_congr [Zero R] [Add R] [Mul R] (gf : Gfunction_t R GM X)
    (e1 e2 : Nat → R) (h : ∀ i, i < gf.NCLUSTER → e1 i = e2 i) :
    switched_sum gf e1 = switched_sum gf e2 := by
  unfold switched_sum
  exact forLoop_congr _ _ _ _ (fun i hi t => by rw [h i hi])

end sweep

/-! ## The combined coordinate buffer -/

theorem push3_eq {R : Type} (src : List R) (it : Nat) (out : List R)
    (h : it + 3 ≤ src.length) :
    push3 src (it, out) = some (it + 3, out ++ (src.drop it).take 3) := by
  have h0 : src[it]? = (src.drop it)[0]? := by rw [List.getElem?_drop]; rfl
  have h1 : src[it + 1]? = (src.drop it)[1]? := by rw [List.getElem?_drop]
  have h2 : src[it + 2]? = (src.drop it)[2]? := by rw [List.getElem?_drop]
  have hl : 3 ≤ (src.drop it).length := by rw [List.length_drop]; omega
  unfold push3
  simp only [h0, h1, h2]
  match hd : src.drop it, hl with
  | x :: y :: z :: rest, _ => simp

theorem copy_atoms_eq {R : Type} (src : List R) (a : Nat) :
    ∀ (it : Nat) (out : List R), it + 3 * a ≤ src.length →
      copy_atoms src a (it, out) = some (it + 3 * a, out ++ (src.drop it).take (3 * a)) := by
  induction a with
  | zero => intro it out _; simp [copy_atoms]
  | succ a ih =>
    intro it out h
    have e : 3 * (a + 1) = 3 + 3 * a := by ring
    rw [copy_atoms, push3_eq src it out (by omega), Option.some_bind, ih _ _ (by omega), e,
      List.take_add, List.drop_drop]
    simp [Nat.add_assoc, List.append_assoc]

theorem interleave_eq {R : Type} (xyz1 xyz2 : List R) (a1 a2 : Nat) (n : Nat) :
    ∀ (s : Nat) (out : List R), 3 * a1 * (s + n) ≤ xyz1.length →
      3 * a2 * (s + n) ≤ xyz2.length →
      interleave xyz1 xyz2 a1 a2 n (s * (3 * a1), s * (3 * a2), out) =
        some ((s + n) * (3 * a1), (s + n) * (3 * a2),
          out ++ (List.range' s n).flatMap
            (fun i => chunk xyz1 (3 * a1) i ++ chunk xyz2 (3 * a2) i)) := by
  induction n with
  | zero => intro s out _ _; simp [interleave]
  | succ n ih =>
    intro s out h1 h2
    have b1 : s * (3 * a1) + 3 * a1 ≤ xyz1.length := by nlinarith
    have b2 : s * (3 * a2) + 3 * a2 ≤ xyz2.length := by nlinarith
    have e1 : s * (3 * a1) + 3 * a1 = (s + 1) * (3 * a1) := by ring
    have e2 : s * (3 * a2) + 3 * a2 = (s + 1) * (3 * a2) := by ring
    have e3 : s + 1 + n = s + (n + 1) := by ring
    rw [interleave, copy_atoms_eq xyz1 a1 _ _ b1, Option.some_bind]
    simp only []
    rw [copy_atoms_eq xyz2 a2 _ _ b2, Option.some_bind]
    simp only []
    rw [e1, e2, ih (s + 1) _ (by rw [e3]; exact h1) (by rw [e3]; exact h2), e3]
    simp [List.range', chunk, List.append_assoc]

/-- The combined buffer that `gather` would build. -/
theorem gather_eq {R : Type} (nd : Nat) (xyz1 xyz2 : List R) (atoms1 atoms2 : List String)
    (hnd : 0 < nd) (hsz : 3 * nd < SIZE_MOD)
    (h1 : xyz1.length / (3 * nd) ≤ INT_MAX) (h2 : xyz2.length / (3 * nd) ≤ INT_MAX) :
    gather nd xyz1 xyz2 atoms1 atoms2 = some
      { a1 := xyz1.length / (3 * nd)
        a2 := xyz2.length / (3 * nd)
        warnings := (label_check (xyz1.length / (3 * nd)) (xyz2.length / (3 * nd))
          atoms1 atoms2).1
        atoms := (label_check (R := R) (xyz1.length / (3 * nd)) (xyz2.length / (3 * nd))
          atoms1 atoms2).2
        allxyz := (List.range nd).flatMap (fun i =>
          chunk xyz1 (3 * (xyz1.length / (3 * nd))) i ++
          chunk xyz2 (3 * (xyz2.length / (3 * nd))) i) } := by
  have hm : 3 * nd % SIZE_MOD = 3 * nd := Nat.mod_eq_of_lt hsz
  have hne : ¬ 3 * nd = 0 := by omega
  have hg : ¬ (INT_MAX < xyz1.length / (3 * nd) ∨ INT_MAX < xyz2.length / (3 * nd)) := by
    omega
  have q1 : 3 * (xyz1.length / (3 * nd)) * (0 + nd) ≤ xyz1.length := by
    have := Nat.div_mul_le_self xyz1.length (3 * nd)
    nlinarith
  have q2 : 3 * (xyz2.length / (3 * nd)) * (0 + nd) ≤ xyz2.length := by
    have := Nat.div_mul_le_self xyz2.length (3 * nd)
    nlinarith
  have hi := interleave_eq xyz1 xyz2 (xyz1.length / (3 * nd)) (xyz2.length / (3 * nd)) nd 0 []
    q1 q2
  simp only [Nat.zero_mul, Nat.zero_add, List.nil_append] at hi
  unfold gather
  simp only [hm, hne, hg, if_false, hi, Option.map_some', List.range_eq_range']

/-! ## Blocks of a coordinate buffer -/

section blocks

variable {R : Type}

theorem chunk_length (xs : List R) (m i : Nat) (h : (i + 1) * m ≤ xs.length) :
    (chunk xs m i).length = m := by
  unfold chunk
  rw [List.length_take, List.length_drop]
  have : (i + 1) * m = i * m + m := by ring
  omega

theorem chunk_zero_self (xs : List R) : chunk xs xs.length 0 = xs := by
  simp [chunk]

theorem chunk_zero_of_length (xs : List R) (m : Nat) (h : xs.length = m) :
    chunk xs m 0 = xs := by
  subst h; exact chunk_zero_self xs

/-- A buffer put together from `n` pieces of `m` values each has `n * m` values, and its
`i`-th run of `m` values is the `i`-th piece. -/
theorem chunk_flatMap (f : Nat → List R) (m n : Nat) (hf : ∀ i, i < n → (f i).length = m) :
    ((List.range n).flatMap f).length = n * m ∧
    ∀ i, i < n → chunk ((List.range n).flatMap f) m i = f i := by
  induction n with
  | zero => simp
  | succ n ih =>
    obtain ⟨hl, hc⟩ := ih (fun i hi => hf i (Nat.lt_succ_of_lt hi))
    have hn := hf n (Nat.lt_succ_self n)
    rw [List.range_succ, List.flatMap_append]
    simp only [List.flatMap_cons, List.flatMap_nil, List.append_nil]
    refine ⟨by rw [List.length_append, hl, hn]; ring, fun i hi => ?_⟩
    by_cases hin : i < n
    · have h1 : i * m ≤ ((List.range n).flatMap f).length := by
        rw [hl]; exact Nat.mul_le_mul_right m (Nat.le_of_lt hin)
      have h2 : m ≤ (List.drop (i * m) ((List.range n).flatMap f)).length := by
        rw [List.length_drop, hl]
        have : (i + 1) * m ≤ n * m := Nat.mul_le_mul_right m hin
        have e : (i + 1) * m = i * m + m := by ring
        omega
      rw [← hc i hin]
      unfold chunk
      rw [List.drop_append_of_le_length h1, List.take_append_of_le_length h2]
    · have hi' : i = n := by omega
      subst hi'
      unfold chunk
      rw [← hl, List.drop_left, ← hn, List.take_length]

theorem block_flatMap (f : Nat → List R) (m n : Nat) (hn : 0 < n)
    (hf : ∀ i, i < n → (f i).length = m) (i : Nat) (hi : i < n) :
    block ((List.range n).flatMap f) n i = f i := by
  obtain ⟨hl, hc⟩ := chunk_flatMap f m n hf
  unfold block
  rw [hl, Nat.mul_div_cancel_left m hn]
  exact hc i hi

end blocks

/-! ## The energy of the coordinate-vector overloads -/

section energy

variable {R GM X P C : Type}

/-- After a loop over all atoms that started from a zeroed `energy_`, the switched sum is the
one of the per-configuration sums of the network outputs, added in the order of the atoms. -/
theorem switched_sum_sweep [Zero R] [Add R] [Mul R] (env : Collab R GM X P C)
    (gf : Gfunction_t R GM X) (body : Nat → Sweep R P C → Sweep R P C)
    (hpar : ∀ atom s tp, ((body atom s).nets tp).params = (s.nets tp).params)
    (hen : ∀ atom s, (body atom s).energy_
      = add_tmp gf.NCLUSTER (atom_out env gf s.nets atom).2 s.energy_)
    (nets : Nat → Net P C) (n : Nat) :
    switched_sum gf
        (forLoop n body { nets := nets, energy_ := fun _ => 0, dfdG := [], log := [] }).energy_
      = switched_sum gf
          (fun i => forLoop n (fun atom acc => acc + (atom_out env gf nets atom).2 i) 0) := by
  apply switched_sum_congr
  intro i hi
  rw [sweep_energy env gf body hpar hen]
  simp [hi]

/-- In exact arithmetic the switched sum is the double sum over configurations and atoms. -/
theorem switched_sum_eq_sum [CommSemiring R] (env : Collab R GM X P C)
    (gf : Gfunction_t R GM X) (nets : Nat → Net P C) (n : Nat) :
    switched_sum gf
        (fun i => forLoop n (fun atom acc => acc + (atom_out env gf nets atom).2 i) 0)
      = ∑ i ∈ Finset.range gf.NCLUSTER,
          (∑ atom ∈ Finset.range n, (atom_out env gf nets atom).2 i) * gf.switch_factor i := by
  unfold switched_sum
  rw [forLoop_add_eq_sum]
  exact Finset.sum_congr rfl (fun i _ => by simp only [forLoop_add_eq_sum])

/-- The value of the overload without gradients, once `gather` has succeeded. -/
theorem get_eng_2h2o_eq [Zero R] [Add R] [Mul R] (env : Collab R GM X P C)
    (slot : Option (bpnn_t R GM X P C)) (nd : Nat) (xyz1 xyz2 : List R)
    (atoms1 atoms2 : List String) (inp : Gathered R)
    (hg : gather nd xyz1 xyz2 atoms1 atoms2 = some inp) :
    ∃ r, get_eng_2h2o env slot nd xyz1 xyz2 atoms1 atoms2 = some r ∧
      r.obj.gf = prepared env nd inp.allxyz inp.atoms (evaluator env slot).gf ∧
      (∀ tp, (r.obj.nets tp).params = ((evaluator env slot).nets tp).params) ∧
      r.energy = switched_sum r.obj.gf (fun i => forLoop r.obj.gf.NATOM
        (fun atom acc => acc + (atom_out env r.obj.gf (evaluator env slot).nets atom).2 i) 0)
          * env.EUNIT ∧
      r.obj.energy_ = some (fun i => if i < r.obj.gf.NCLUSTER then forLoop r.obj.gf.NATOM
        (fun atom acc => acc + (atom_out env r.obj.gf (evaluator env slot).nets atom).2 i) 0
          else 0) ∧
      r.log = (static_local (bpnn_t.ctor env "2h2o_default") slot).2 ++ inp.warnings ++
        [Event.load_xyz_and_type_from_vectors nd inp.allxyz inp.atoms, Event.make_G,
         Event.cal_switch 2] ++
        (forLoop (prepared env nd inp.allxyz inp.atoms (evaluator env slot).gf).NATOM
          (predict_atom env (prepared env nd inp.allxyz inp.atoms (evaluator env slot).gf))
          { nets := (evaluator env slot).nets, energy_ := fun _ => 0, dfdG := [],
            log := [] }).log := by
  refine ⟨_, by unfold get_eng_2h2o; rw [hg]; rfl, rfl, ?_, ?_, ?_, rfl⟩
  · intro tp
    exact sweep_params _ (predict_atom_params env _) _ _ tp
  · simp only []
    rw [switched_sum_sweep env _ _ (predict_atom_params env _) (predict_atom_energy env _)]
    rfl
  · simp only []
    congr 1
    funext i
    rw [sweep_energy env _ _ (predict_atom_params env _) (predict_atom_energy env _)]
    rfl

end energy

/-- A call of the overload without gradients that returns has built its combined buffer. -/
theorem gather_of_get_eng_2h2o {R GM X P C : Type} [Zero R] [Add R] [Mul R]
    (env : Collab R GM X P C) (slot : Option (bpnn_t R GM X P C)) (nd : Nat)
    (xyz1 xyz2 : List R) (atoms1 atoms2 : List String) (r : Call R GM X P C)
    (h : get_eng_2h2o env slot nd xyz1 xyz2 atoms1 atoms2 = some r) :
    ∃ inp, gather nd xyz1 xyz2 atoms1 atoms2 = some inp := by
  cases hg : gather nd xyz1 xyz2 atoms1 atoms2 with
  | none =>
    unfold get_eng_2h2o at h
    simp [hg] at h
  | some inp => exact ⟨inp, rfl⟩

/-- The content of C1 for a call whose combined buffer has been built. -/
theorem get_eng_2h2o_additive_of_gather {R GM X P C : Type} [CommSemiring R]
    (env : Collab R GM X P C) (slot : Option (bpnn_t R GM X P C)) (nd : Nat)
    (xyz1 xyz2 : List R) (atoms1 atoms2 : List String) (inp : Gathered R)
    (hg : gather nd xyz1 xyz2 atoms1 atoms2 = some inp) :
    ∃ r, get_eng_2h2o env slot nd xyz1 xyz2 atoms1 atoms2 = some r ∧
      r.energy = env.EUNIT * ∑ i ∈ Finset.range r.obj.gf.NCLUSTER,
        (∑ atom ∈ Finset.range r.obj.gf.NATOM, (atom_out env r.obj.gf r.obj.nets atom).2 i)
          * r.obj.gf.switch_factor i ∧
      (∃ e, r.obj.energy_ = some e ∧ ∀ i, i < r.obj.gf.NCLUSTER →
        e i = ∑ atom ∈ Finset.range r.obj.gf.NATOM, (atom_out env r.obj.gf r.obj.nets atom).2 i) ∧
      ∀ old : Option (Nat → R),
        (get_eng_2h2o env (some { evaluator env slot with energy_ := old }) nd xyz1 xyz2
          atoms1 atoms2).map Call.energy = some r.energy := by
  obtain ⟨r, hr, hgf, hp, he, hbuf, _⟩ := get_eng_2h2o_eq env slot nd xyz1 xyz2 atoms1 atoms2 _ hg
  have hout : ∀ atom, atom_out env r.obj.gf (evaluator env slot).nets atom
      = atom_out env r.obj.gf r.obj.nets atom :=
    fun atom => atom_out_congr env _ _ _ (fun tp => (hp tp).symm) atom
  refine ⟨r, hr, ?_, ⟨_, hbuf, ?_⟩, ?_⟩
  · rw [he, switched_sum_eq_sum, mul_comm]
    simp only [hout]
  · intro i hi
    simp only [hi, if_true, forLoop_add_eq_sum, hout]
  · intro old
    obtain ⟨r', hr', hgf', _, he', _, _⟩ := get_eng_2h2o_eq env
      (some { evaluator env slot with energy_ := old }) nd xyz1 xyz2 atoms1 atoms2 _ hg
    have hev : evaluator env (some { evaluator env slot with energy_ := old })
        = { evaluator env slot with energy_ := old } := rfl
    rw [hr', Option.map_some', he', he, hgf', hgf, hev]

/-- C1: whenever the overload without gradients returns, the value is `EUNIT` times the sum
over the configurations of the summed network outputs of the atoms times the switch weight; the
buffer `energy_` it leaves holds exactly these per-configuration sums, and the returned energy is
the same whatever `energy_` held when the call began.  The call does return for every `nd ≥ 1`
whose triple fits `size_t` and whose atom counts fit `int`. -/
theorem get_eng_2h2o_additive {R GM X P C : Type} [CommSemiring R] (env : Collab R GM X P C)
    (slot : Option (bpnn_t R GM X P C)) (nd : Nat) (xyz1 xyz2 : List R)
    (atoms1 atoms2 : List String) :
    (∀ r, get_eng_2h2o env slot nd xyz1 xyz2 atoms1 atoms2 = some r →
      r.energy = env.EUNIT * ∑ i ∈ Finset.range r.obj.gf.NCLUSTER,
        (∑ atom ∈ Finset.range r.obj.gf.NATOM, (atom_out env r.obj.gf r.obj.nets atom).2 i)
          * r.obj.gf.switch_factor i ∧
      (∃ e, r.obj.energy_ = some e ∧ ∀ i, i < r.obj.gf.NCLUSTER →
        e i = ∑ atom ∈ Finset.range r.obj.gf.NATOM, (atom_out env r.obj.gf r.obj.nets atom).2 i) ∧
      ∀ old : Option (Nat → R),
        (get_eng_2h2o env (some { evaluator env slot with energy_ := old }) nd xyz1 xyz2
          atoms1 atoms2).map Call.energy = some r.energy) ∧
    (0 < nd → 3 * nd < SIZE_MOD → xyz1.length / (3 * nd) ≤ INT_MAX →
      xyz2.length / (3 * nd) ≤ INT_MAX →
      ∃ r, get_eng_2h2o env slot nd xyz1 xyz2 atoms1 atoms2 = some r) := by
  constructor
  · intro r hr
    obtain ⟨inp, hg⟩ := gather_of_get_eng_2h2o env slot nd xyz1 xyz2 atoms1 atoms2 r hr
    obtain ⟨r', hr', hP⟩ :=
      get_eng_2h2o_additive_of_gather env slot nd xyz1 xyz2 atoms1 atoms2 inp hg
    have e : r = r' := Option.some.inj (hr.symm.trans hr')
    rw [e]
    exact hP
  · intro hnd hsz h1 h2
    obtain ⟨r, hr, _⟩ := get_eng_2h2o_additive_of_gather env slot nd xyz1 xyz2 atoms1 atoms2 _
      (gather_eq nd xyz1 xyz2 atoms1 atoms2 hnd hsz h1 h2)
    exact ⟨r, hr⟩

/-- Witness of C1: two configurations of a water dimer on the concrete instance. -/
theorem get_eng_2h2o_additive_witness :
    (0 < 2 ∧ 3 * 2 < SIZE_MOD ∧ demo_xyz1.length / (3 * 2) ≤ INT_MAX ∧
      demo_xyz2.length / (3 * 2) ≤ INT_MAX) ∧
    ∃ r, get_eng_2h2o demo none 2 demo_xyz1 demo_xyz2 [] [] = some r ∧
      r.energy = demo.EUNIT * ∑ i ∈ Finset.range r.obj.gf.NCLUSTER,
        (∑ atom ∈ Finset.range r.obj.gf.NATOM, (atom_out demo r.obj.gf r.obj.nets atom).2 i)
          * r.obj.gf.switch_factor i ∧
      (∃ e, r.obj.energy_ = some e ∧ ∀ i, i < r.obj.gf.NCLUSTER →
        e i = ∑ atom ∈ Finset.range r.obj.gf.NATOM,
          (atom_out demo r.obj.gf r.obj.nets atom).2 i) ∧
      ∀ old : Option (Nat → ℤ),
        (get_eng_2h2o demo (some { evaluator demo none with energy_ := old }) 2 demo_xyz1
          demo_xyz2 [] []).map Call.energy = some r.energy := by
  refine ⟨⟨by decide, by decide, by decide, by decide⟩, ?_⟩
  obtain ⟨r, hr⟩ := (get_eng_2h2o_additive demo none 2 demo_xyz1 demo_xyz2 [] []).2
    (by decide) (by decide) (by decide) (by decide)
  exact ⟨r, hr, (get_eng_2h2o_additive demo none 2 demo_xyz1 demo_xyz2 [] []).1 r hr⟩

/-! ## The loop over the atoms of the gradient-returning overload -/

section gradsweep

variable {R GM X P C : Type}

theorem grd_of_congr [Zero R] (env : Collab R GM X P C) (gf : Gfunction_t R GM X) (cols : Nat)
    (n1 n2 : Nat → Net P C) (h : ∀ tp, (n1 tp).params = (n2 tp).params) (atom : Nat) (c : C) :
    grd_of env gf cols n1 atom c = grd_of env gf cols n2 atom c := by
  unfold grd_of; rw [h]

/-- One iteration of the gradient loop pushes the matrix that `backward` computes from the
forward state cached by the `predict` of the same iteration. -/
theorem grad_body_dfdG [Zero R] [Add R] (env : Collab R GM X P C) (gf : Gfunction_t R GM X)
    (cols atom : Nat) (s : Sweep R P C) :
    (backward_atom env gf cols atom (predict_atom env gf atom s)).dfdG
      = s.dfdG ++ [grd_of env gf cols s.nets atom (atom_out env gf s.nets atom).1] := by
  simp [backward_atom, predict_atom, grd_of, atom_out]

theorem grad_body_log [Zero R] [Add R] (env : Collab R GM X P C) (gf : Gfunction_t R GM X)
    (cols atom : Nat) (s : Sweep R P C) :
    (backward_atom env gf cols atom (predict_atom env gf atom s)).log
      = s.log ++ [Event.predict (gf.TYPE_EACHATOM atom) atom,
                  Event.backward (gf.TYPE_EACHATOM atom) atom] := by
  simp [backward_atom, predict_atom]

/-- The matrices collected by the gradient loop: for every atom, `backward` on the state cached
by the `predict` of that atom. -/
theorem grad_sweep_dfdG [Zero R] [Add R] (env : Collab R GM X P C) (gf : Gfunction_t R GM X)
    (cols n : Nat) (s : Sweep R P C) :
    (forLoop n (fun atom s => backward_atom env gf cols atom (predict_atom env gf atom s))
        s).dfdG
      = s.dfdG ++ (List.range n).map
          (fun atom => grd_of env gf cols s.nets atom (atom_out env gf s.nets atom).1) := by
  induction n with
  | zero => simp [forLoop_zero]
  | succ n ih =>
    have hp := sweep_params
      (fun atom s => backward_atom env gf cols atom (predict_atom env gf atom s))
      (grad_body_params env gf cols) n s
    rw [forLoop_succ, grad_body_dfdG, ih, List.range_succ, List.map_append,
      atom_out_congr env gf _ s.nets hp, grd_of_congr env gf cols _ s.nets hp]
    simp

/-- The network calls of the gradient loop, in order. -/
theorem grad_sweep_log [Zero R] [Add R] (env : Collab R GM X P C) (gf : Gfunction_t R GM X)
    (cols n : Nat) (s : Sweep R P C) :
    (forLoop n (fun atom s => backward_atom env gf cols atom (predict_atom env gf atom s))
        s).log
      = s.log ++ (List.range n).flatMap
          (fun atom => [Event.predict (gf.TYPE_EACHATOM atom) atom,
                        Event.backward (gf.TYPE_EACHATOM atom) atom]) := by
  induction n with
  | zero => simp [forLoop_zero]
  | succ n ih =>
    rw [forLoop_succ, grad_body_log, ih, List.range_succ, List.flatMap_append]
    simp

/-- The network calls of the forward-only loop, in order. -/
theorem predict_sweep_log [Add R] (env : Collab R GM X P C) (gf : Gfunction_t R GM X)
    (n : Nat) (s : Sweep R P C) :
    (forLoop n (predict_atom env gf) s).log
      = s.log ++ (List.range n).map (fun atom => Event.predict (gf.TYPE_EACHATOM atom) atom) := by
  induction n with
  | zero => simp [forLoop_zero]
  | succ n ih =>
    rw [forLoop_succ, List.range_succ, List.map_append]
    simp [predict_atom, ih]

/-- The value of the gradient-returning overload, once `gather` has succeeded. -/
theorem get_eng_2h2o_grad_eq [Zero R] [Add R] [Mul R] (env : Collab R GM X P C)
    (slot : Option (bpnn_t R GM X P C)) (nd : Nat) (xyz1 xyz2 grad1 grad2 : List R)
    (atoms1 atoms2 : List String) (inp : Gathered R)
    (hg : gather nd xyz1 xyz2 atoms1 atoms2 = some inp) :
    ∃ g, get_eng_2h2o_grad env slot nd xyz1 xyz2 grad1 grad2 atoms1 atoms2 = some g ∧
      g.energy = switched_sum (prepared env nd inp.allxyz inp.atoms (evaluator env slot).gf)
        (fun i => forLoop (prepared env nd inp.allxyz inp.atoms (evaluator env slot).gf).NATOM
          (fun atom acc => acc + (atom_out env
            (prepared env nd inp.allxyz inp.atoms (evaluator env slot).gf)
            (evaluator env slot).nets atom).2 i) 0) * env.EUNIT ∧
      g.dfdG = (List.range (prepared env nd inp.allxyz inp.atoms (evaluator env slot).gf).NATOM).map
        (fun atom => grd_of env (prepared env nd inp.allxyz inp.atoms (evaluator env slot).gf)
          nd (evaluator env slot).nets atom
          (atom_out env (prepared env nd inp.allxyz inp.atoms (evaluator env slot).gf)
            (evaluator env slot).nets atom).1) ∧
      g.log = (static_local (bpnn_t.ctor env "2h2o_default") slot).2 ++ inp.warnings ++
        [Event.load_xyz_and_type_from_vectors nd inp.allxyz inp.atoms, Event.make_G,
         Event.cal_switch 2] ++
        (List.range (prepared env nd inp.allxyz inp.atoms (evaluator env slot).gf).NATOM).flatMap
          (fun atom =>
            [Event.predict ((prepared env nd inp.allxyz inp.atoms
                (evaluator env slot).gf).TYPE_EACHATOM atom) atom,
             Event.backward ((prepared env nd inp.allxyz inp.atoms
                (evaluator env slot).gf).TYPE_EACHATOM atom) atom]) ++
        [Event.make_grd, Event.get_dfdx_from_switch 2] ∧
      (∃ e, g.obj.energy_ = some e ∧
        (∀ i, e i = if i < (prepared env nd inp.allxyz inp.atoms (evaluator env slot).gf).NCLUSTER
          then forLoop (prepared env nd inp.allxyz inp.atoms (evaluator env slot).gf).NATOM
            (fun atom acc => acc + (atom_out env
              (prepared env nd inp.allxyz inp.atoms (evaluator env slot).gf)
              (evaluator env slot).nets atom).2 i) 0
          else 0) ∧
        g.obj.gf = assemble env 2 g.dfdG e
          (prepared env nd inp.allxyz inp.atoms (evaluator env slot).gf)) ∧
      (g.grad1, g.grad2)
        = (deinterleave g.obj.gf.dfdxyz.pool inp.a1 inp.a2 nd (0, grad1, grad2)).2 := by
  refine ⟨_, by unfold get_eng_2h2o_grad; rw [hg]; rfl, ?_, ?_, ?_, ⟨_, rfl, ?_, rfl⟩, rfl⟩
  · simp only []
    rw [switched_sum_sweep env _ _ (grad_body_params env _ nd) (grad_body_energy env _ nd)]
    rfl
  · simp only []
    rw [grad_sweep_dfdG]
    rfl
  · simp only []
    rw [grad_sweep_log]
    rfl
  · intro i
    rw [sweep_energy env _ _ (grad_body_params env _ nd) (grad_body_energy env _ nd)]
    rfl

end gradsweep

/-- A call of the gradient-returning overload that returns has built its combined buffer. -/
theorem gather_of_get_eng_2h2o_grad {R GM X P C : Type} [Zero R] [Add R] [Mul R]
    (env : Collab R GM X P C) (slot : Option (bpnn_t R GM X P C)) (nd : Nat)
    (xyz1 xyz2 grad1 grad2 : List R) (atoms1 atoms2 : List String) (g : GradCall R GM X P C)
    (h : get_eng_2h2o_grad env slot nd xyz1 xyz2 grad1 grad2 atoms1 atoms2 = some g) :
    ∃ inp, gather nd xyz1 xyz2 atoms1 atoms2 = some inp := by
  cases hg : gather nd xyz1 xyz2 atoms1 atoms2 with
  | none =>
    unfold get_eng_2h2o_grad at h
    simp [hg] at h
  | some inp => exact ⟨inp, rfl⟩

/-- C2: on the same input and the same loaded model (evaluators that hold the same
`Gfunction_t` state and the same network parameters; cached forward states and `energy_` may
differ) the gradient-returning overload returns exactly the energy of the overload without
gradients, and returns exactly when that one does.  No law of arithmetic is used: the two calls
perform the same additions and multiplications in the same order.  Both calls do return for
every `nd ≥ 1` whose triple fits `size_t` and whose atom counts fit `int`. -/
theorem get_eng_2h2o_grad_same_energy {R GM X P C : Type} [Zero R] [Add R] [Mul R]
    (env : Collab R GM X P C) (slot slot_g : Option (bpnn_t R GM X P C)) (nd : Nat)
    (xyz1 xyz2 grad1 grad2 : List R) (atoms1 atoms2 : List String)
    (hgf : (evaluator env slot_g).gf = (evaluator env slot).gf)
    (hpar : ∀ tp, ((evaluator env slot_g).nets tp).params
      = ((evaluator env slot).nets tp).params) :
    (get_eng_2h2o_grad env slot_g nd xyz1 xyz2 grad1 grad2 atoms1 atoms2).map GradCall.energy
      = (get_eng_2h2o env slot nd xyz1 xyz2 atoms1 atoms2).map Call.energy ∧
    (0 < nd → 3 * nd < SIZE_MOD → xyz1.length / (3 * nd) ≤ INT_MAX →
      xyz2.length / (3 * nd) ≤ INT_MAX →
      ∃ r g, get_eng_2h2o env slot nd xyz1 xyz2 atoms1 atoms2 = some r ∧
        get_eng_2h2o_grad env slot_g nd xyz1 xyz2 grad1 grad2 atoms1 atoms2 = some g ∧
        g.energy = r.energy) := by
  have key : ∀ inp, gather nd xyz1 xyz2 atoms1 atoms2 = some inp →
      ∃ r g, get_eng_2h2o env slot nd xyz1 xyz2 atoms1 atoms2 = some r ∧
        get_eng_2h2o_grad env slot_g nd xyz1 xyz2 grad1 grad2 atoms1 atoms2 = some g ∧
        g.energy = r.energy := by
    intro inp hg
    obtain ⟨r, hr, hrgf, _, he, _, _⟩ :=
      get_eng_2h2o_eq env slot nd xyz1 xyz2 atoms1 atoms2 _ hg
    obtain ⟨g, hgr, hge, _⟩ :=
      get_eng_2h2o_grad_eq env slot_g nd xyz1 xyz2 grad1 grad2 atoms1 atoms2 _ hg
    refine ⟨r, g, hr, hgr, ?_⟩
    rw [hge, he, hrgf, hgf]
    simp only [atom_out_congr env _ _ _ hpar]
  constructor
  · cases hg : gather nd xyz1 xyz2 atoms1 atoms2 with
    | none =>
      unfold get_eng_2h2o_grad get_eng_2h2o
      simp [hg]
    | some inp =>
      obtain ⟨r, g, hr, hgr, he⟩ := key inp hg
      rw [hr, hgr, Option.map_some', Option.map_some', he]
  · intro hnd hsz h1 h2
    exact key _ (gather_eq nd xyz1 xyz2 atoms1 atoms2 hnd hsz h1 h2)

/-- Witness of C2: both overloads called for the first time on two configurations. -/
theorem get_eng_2h2o_grad_same_energy_witness :
    ((evaluator demo none).gf = (evaluator demo none).gf ∧
      (∀ tp, ((evaluator demo none).nets tp).params = ((evaluator demo none).nets tp).params) ∧
      0 < 2 ∧ 3 * 2 < SIZE_MOD ∧ demo_xyz1.length / (3 * 2) ≤ INT_MAX ∧
      demo_xyz2.length / (3 * 2) ≤ INT_MAX) ∧
    ∃ r g, get_eng_2h2o demo none 2 demo_xyz1 demo_xyz2 [] [] = some r ∧
      get_eng_2h2o_grad demo none 2 demo_xyz1 demo_xyz2 [] [] [] [] = some g ∧
      g.energy = r.energy :=
  ⟨⟨rfl, fun _ => rfl, by decide, by decide, by decide, by decide⟩,
   (get_eng_2h2o_grad_same_energy demo none none 2 demo_xyz1 demo_xyz2 [] [] [] []
     rfl (fun _ => rfl)).2 (by decide) (by decide) (by decide) (by decide)⟩

/-! ## Order of the network calls -/

theorem range_split (n a : Nat) (h : a < n) :
    List.range n = List.range a ++ a :: List.range' (a + 1) (n - a - 1) := by
  rw [List.range_eq_range', List.range_eq_range']
  have e : n = (n - a - 1 + 1) + a := by omega
  conv_lhs => rw [e]
  rw [← List.range'_append 0 a (n - a - 1 + 1) 1, List.range'_succ]
  simp

/-- Every member of a list produced by `flatMap` over `range n` sits between a front and a
back part. -/
theorem flatMap_range_split {α : Type} (f : Nat → List α) (n a : Nat) (h : a < n) :
    ∃ pre post, (List.range n).flatMap f = pre ++ f a ++ post := by
  refine ⟨(List.range a).flatMap f, (List.range' (a + 1) (n - a - 1)).flatMap f, ?_⟩
  rw [range_split n a h, List.flatMap_append, List.flatMap_cons, List.append_assoc]

theorem mid_split {α : Type} (front back pre post mid : List α) :
    ∃ p q, front ++ (pre ++ mid ++ post) ++ back = p ++ mid ++ q :=
  ⟨front ++ pre, post ++ back, by simp⟩

theorem ctor_log_no_net_call {R GM X P C : Type} (env : Collab R GM X P C) (tag : String) :
    (bpnn_t.ctor env tag).2.filter Event.isNetCall = [] := by
  unfold bpnn_t.ctor
  split
  · rfl
  · split <;> rfl

theorem static_log_no_net_call {R GM X P C : Type} (env : Collab R GM X P C) (tag : String)
    (slot : Option (bpnn_t R GM X P C)) :
    (static_local (bpnn_t.ctor env tag) slot).2.filter Event.isNetCall = [] := by
  cases slot with
  | none => exact ctor_log_no_net_call env tag
  | some obj => rfl

theorem label_check_no_net_call {R : Type} (a1 a2 : Nat) (atoms1 atoms2 : List String) :
    (label_check (R := R) a1 a2 atoms1 atoms2).1.filter Event.isNetCall = [] := by
  unfold label_check
  split
  · rfl
  · split <;> split <;> rfl

/-- Whatever `gather` returns carries the outcome of the label check. -/
theorem gather_labels {R : Type} (nd : Nat) (xyz1 xyz2 : List R) (atoms1 atoms2 : List String)
    (inp : Gathered R) (hg : gather nd xyz1 xyz2 atoms1 atoms2 = some inp) :
    inp.warnings = (label_check inp.a1 inp.a2 atoms1 atoms2).1 ∧
    inp.atoms = (label_check (R := R) inp.a1 inp.a2 atoms1 atoms2).2 := by
  unfold gather at hg
  by_cases h0 : 3 * nd % SIZE_MOD = 0
  · simp [h0] at hg
  · by_cases hmax : INT_MAX < xyz1.length / (3 * nd % SIZE_MOD) ∨
        INT_MAX < xyz2.length / (3 * nd % SIZE_MOD)
    · simp [h0, hmax] at hg
    · simp only [h0, hmax, if_false] at hg
      cases hi : interleave xyz1 xyz2 (xyz1.length / (3 * nd % SIZE_MOD))
          (xyz2.length / (3 * nd % SIZE_MOD)) nd (0, 0, []) with
      | none => simp [hi] at hg
      | some st =>
        rw [hi, Option.map_some'] at hg
        rw [← Option.some.inj hg]
        exact ⟨rfl, rfl⟩

/-- The content of C4 for a call whose combined buffer has been built. -/
theorem backward_follows_predict_of_gather {R GM X P C : Type} [Zero R] [Add R] [Mul R]
    (env : Collab R GM X P C) (slot : Option (bpnn_t R GM X P C)) (nd : Nat)
    (xyz1 xyz2 grad1 grad2 : List R) (atoms1 atoms2 : List String) (inp : Gathered R)
    (hg : gather nd xyz1 xyz2 atoms1 atoms2 = some inp) :
    ∃ g, get_eng_2h2o_grad env slot nd xyz1 xyz2 grad1 grad2 atoms1 atoms2 = some g ∧
      (∀ atom, atom < (prepared env nd inp.allxyz inp.atoms (evaluator env slot).gf).NATOM →
        ∃ pre post, g.log = pre ++
          [Event.predict ((prepared env nd inp.allxyz inp.atoms
              (evaluator env slot).gf).TYPE_EACHATOM atom) atom,
           Event.backward ((prepared env nd inp.allxyz inp.atoms
              (evaluator env slot).gf).TYPE_EACHATOM atom) atom] ++ post) ∧
      g.log.filter Event.isNetCall =
        (List.range (prepared env nd inp.allxyz inp.atoms (evaluator env slot).gf).NATOM).flatMap
          (fun atom =>
            [Event.predict ((prepared env nd inp.allxyz inp.atoms
                (evaluator env slot).gf).TYPE_EACHATOM atom) atom,
             Event.backward ((prepared env nd inp.allxyz inp.atoms
                (evaluator env slot).gf).TYPE_EACHATOM atom) atom]) ∧
      (∀ atom, atom < (prepared env nd inp.allxyz inp.atoms (evaluator env slot).gf).NATOM →
        g.dfdG[atom]? = some
          (grd_of env (prepared env nd inp.allxyz inp.atoms (evaluator env slot).gf) nd
            (evaluator env slot).nets atom
            (atom_out env (prepared env nd inp.allxyz inp.atoms (evaluator env slot).gf)
              (evaluator env slot).nets atom).1)) := by
  obtain ⟨g, hgr, _, hd, hl, _⟩ :=
    get_eng_2h2o_grad_eq env slot nd xyz1 xyz2 grad1 grad2 atoms1 atoms2 _ hg
  have hw : inp.warnings.filter Event.isNetCall = [] := by
    rw [(gather_labels nd xyz1 xyz2 atoms1 atoms2 inp hg).1]
    exact label_check_no_net_call _ _ _ _
  refine ⟨g, hgr, ?_, ?_, ?_⟩
  · intro atom hat
    obtain ⟨pre, post, hsplit⟩ := flatMap_range_split
      (fun atom =>
        [Event.predict ((prepared env nd inp.allxyz inp.atoms
            (evaluator env slot).gf).TYPE_EACHATOM atom) atom,
         Event.backward ((prepared env nd inp.allxyz inp.atoms
            (evaluator env slot).gf).TYPE_EACHATOM atom) atom])
      _ atom hat
    rw [hl, hsplit]
    exact mid_split _ _ _ _ _
  · rw [hl]
    simp only [List.filter_append, static_log_no_net_call, hw, List.filter_flatMap]
    simp [Event.isNetCall]
  · intro atom hat
    rw [hd, List.getElem?_map, List.getElem?_range hat]
    rfl

/-- C4: whenever the gradient-returning overload returns, then for every atom the call
`backward` on the network of the atom's type is the very next logged action after the call
`predict` on that network with the atom's descriptor matrix; the network calls of the whole run
are exactly these pairs, atom after atom; and the matrix kept for the atom is the one `backward`
computes from the forward state cached by the `predict` of that same atom.  The call does return
for every `nd ≥ 1` whose triple fits `size_t` and whose atom counts fit `int`. -/
theorem get_eng_2h2o_grad_backward_follows_predict {R GM X P C : Type} [Zero R] [Add R] [Mul R]
    (env : Collab R GM X P C) (slot : Option (bpnn_t R GM X P C)) (nd : Nat)
    (xyz1 xyz2 grad1 grad2 : List R) (atoms1 atoms2 : List String) :
    (∀ g, get_eng_2h2o_grad env slot nd xyz1 xyz2 grad1 grad2 atoms1 atoms2 = some g →
      ∃ inp, gather nd xyz1 xyz2 atoms1 atoms2 = some inp ∧
      (∀ atom, atom < (prepared env nd inp.allxyz inp.atoms (evaluator env slot).gf).NATOM →
        ∃ pre post, g.log = pre ++
          [Event.predict ((prepared env nd inp.allxyz inp.atoms
              (evaluator env slot).gf).TYPE_EACHATOM atom) atom,
           Event.backward ((prepared env nd inp.allxyz inp.atoms
              (evaluator env slot).gf).TYPE_EACHATOM atom) atom] ++ post) ∧
      g.log.filter Event.isNetCall =
        (List.range (prepared env nd inp.allxyz inp.atoms (evaluator env slot).gf).NATOM).flatMap
          (fun atom =>
            [Event.predict ((prepared env nd inp.allxyz inp.atoms
                (evaluator env slot).gf).TYPE_EACHATOM atom) atom,
             Event.backward ((prepared env nd inp.allxyz inp.atoms
                (evaluator env slot).gf).TYPE_EACHATOM atom) atom]) ∧
      (∀ atom, atom < (prepared env nd inp.allxyz inp.atoms (evaluator env slot).gf).NATOM →
        g.dfdG[atom]? = some
          (grd_of env (prepared env nd inp.allxyz inp.atoms (evaluator env slot).gf) nd
            (evaluator env slot).nets atom
            (atom_out env (prepared env nd inp.allxyz inp.atoms (evaluator env slot).gf)
              (evaluator env slot).nets atom).1))) ∧
    (0 < nd → 3 * nd < SIZE_MOD → xyz1.length / (3 * nd) ≤ INT_MAX →
      xyz2.length / (3 * nd) ≤ INT_MAX →
      ∃ g, get_eng_2h2o_grad env slot nd xyz1 xyz2 grad1 grad2 atoms1 atoms2 = some g) := by
  constructor
  · intro g hgs
    obtain ⟨inp, hg⟩ :=
      gather_of_get_eng_2h2o_grad env slot nd xyz1 xyz2 grad1 grad2 atoms1 atoms2 g hgs
    obtain ⟨g', hg', hP⟩ := backward_follows_predict_of_gather env slot nd xyz1 xyz2 grad1
      grad2 atoms1 atoms2 inp hg
    have e : g = g' := Option.some.inj (hgs.symm.trans hg')
    rw [e]
    exact ⟨inp, hg, hP⟩
  · intro hnd hsz h1 h2
    obtain ⟨g, hg, _⟩ := backward_follows_predict_of_gather env slot nd xyz1 xyz2 grad1 grad2
      atoms1 atoms2 _ (gather_eq nd xyz1 xyz2 atoms1 atoms2 hnd hsz h1 h2)
    exact ⟨g, hg⟩

/-- Witness of C4: the first call on two configurations of the concrete instance. -/
theorem get_eng_2h2o_grad_backward_follows_predict_witness :
    (0 < 2 ∧ 3 * 2 < SIZE_MOD ∧ demo_xyz1.length / (3 * 2) ≤ INT_MAX ∧
      demo_xyz2.length / (3 * 2) ≤ INT_MAX) ∧
    ∃ g, get_eng_2h2o_grad demo none 2 demo_xyz1 demo_xyz2 [] [] [] [] = some g ∧
      g.log.filter Event.isNetCall =
        [Event.predict 0 0, Event.backward 0 0, Event.predict 1 1, Event.backward 1 1,
         Event.predict 1 2, Event.backward 1 2, Event.predict 0 3, Event.backward 0 3,
         Event.predict 1 4, Event.backward 1 4, Event.predict 1 5, Event.backward 1 5] := by
  refine ⟨⟨by decide, by decide, by decide, by decide⟩, ?_⟩
  obtain ⟨g, hg⟩ :=
    (get_eng_2h2o_grad_backward_follows_predict demo none 2 demo_xyz1 demo_xyz2 [] [] [] []).2
      (by decide) (by decide) (by decide) (by decide)
  obtain ⟨inp, _, _, hlog, _⟩ :=
    (get_eng_2h2o_grad_backward_follows_predict demo none 2 demo_xyz1 demo_xyz2 [] [] [] []).1
      g hg
  refine ⟨g, hg, ?_⟩
  rw [hlog]
  have hprep : ∀ (a : List ℤ) (l : List String),
      (prepared demo 2 a l (evaluator demo none).gf).NATOM = 6 := fun _ _ => rfl
  have htype : ∀ (a : List ℤ) (l : List String) (atom : Nat),
      (prepared demo 2 a l (evaluator demo none).gf).TYPE_EACHATOM atom
        = (evaluator demo none).gf.TYPE_EACHATOM atom := fun _ _ _ => rfl
  rw [hprep]
  simp only [htype]
  decide

/-! ## The gradient tensor -/

section tensor

variable {R : Type}

/-- The inner scaling loop multiplies the first `n` entries of row `i` and nothing else. -/
theorem scale_row [Mul R] (u : R) (i n : Nat) (m : Mtx R) :
    (forLoop n (fun j m => m.set i j (m.get i j * u)) m).cols = m.cols ∧
    ∀ k, (forLoop n (fun j m => m.set i j (m.get i j * u)) m).pool k =
      if i * m.cols ≤ k ∧ k < i * m.cols + n then m.pool k * u else m.pool k := by
  induction n with
  | zero =>
    refine ⟨by rw [forLoop_zero], fun k => ?_⟩
    have h : ¬ (i * m.cols ≤ k ∧ k < i * m.cols + 0) := by omega
    rw [forLoop_zero, if_neg h]
  | succ n ih =>
    rw [forLoop_succ]
    generalize forLoop n (fun j m => m.set i j (m.get i j * u)) m = M at ih
    obtain ⟨hc, hp⟩ := ih
    refine ⟨hc, fun k => ?_⟩
    show Function.update M.pool (i * M.cols + n) (M.pool (i * M.cols + n) * u) k = _
    rw [hc]
    by_cases hk : k = i * m.cols + n
    · subst hk
      rw [Function.update_same, hp]
      simp
    · rw [Function.update_noteq hk, hp]
      by_cases h1 : i * m.cols ≤ k ∧ k < i * m.cols + n
      · have h2 : i * m.cols ≤ k ∧ k < i * m.cols + (n + 1) := ⟨h1.1, by omega⟩
        rw [if_pos h1, if_pos h2]
      · have h2 : ¬ (i * m.cols ≤ k ∧ k < i * m.cols + (n + 1)) := by omega
        rw [if_neg h1, if_neg h2]

/-- The double scaling loop over a matrix with `n` columns multiplies each of the first
`rows * n` pool entries once. -/
theorem scale_rows [Mul R] (u : R) (n rows : Nat) (m : Mtx R) (hcols : m.cols = n) :
    (forLoop rows (fun i m => forLoop n (fun j m => m.set i j (m.get i j * u)) m) m).cols = n ∧
    ∀ k, (forLoop rows (fun i m => forLoop n (fun j m => m.set i j (m.get i j * u)) m) m).pool k
      = if k < rows * n then m.pool k * u else m.pool k := by
  induction rows with
  | zero =>
    refine ⟨by rw [forLoop_zero, hcols], fun k => ?_⟩
    have h : ¬ k < 0 * n := by omega
    rw [forLoop_zero, if_neg h]
  | succ rows ih =>
    rw [forLoop_succ]
    generalize forLoop rows (fun i m => forLoop n (fun j m => m.set i j (m.get i j * u)) m) m
      = M at ih
    obtain ⟨hc, hp⟩ := ih
    obtain ⟨hc', hp'⟩ := scale_row u rows n M
    refine ⟨by rw [hc', hc], fun k => ?_⟩
    show (forLoop n (fun j m => m.set rows j (m.get rows j * u)) M).pool k = _
    rw [hp', hp, hc]
    have e : (rows + 1) * n = rows * n + n := by ring
    by_cases h1 : k < rows * n
    · have h2 : ¬ (rows * n ≤ k ∧ k < rows * n + n) := by omega
      have h3 : k < (rows + 1) * n := by omega
      rw [if_neg h2, if_pos h1, if_pos h3]
    · by_cases h2 : k < rows * n + n
      · have h3 : rows * n ≤ k ∧ k < rows * n + n := ⟨by omega, h2⟩
        have h4 : k < (rows + 1) * n := by omega
        rw [if_pos h3, if_neg h1, if_pos h4]
      · have h3 : ¬ (rows * n ≤ k ∧ k < rows * n + n) := by omega
        have h4 : ¬ k < (rows + 1) * n := by omega
        rw [if_neg h3, if_neg h1, if_neg h4]

/-- Every entry `dfdxyz[i][j]` with `i < NATOM*3` and `j < NCLUSTER` is multiplied by `EUNIT`
once, provided the tensor has `NCLUSTER` columns. -/
theorem scale_dfdxyz_get {GM X : Type} [Mul R] (u : R) (gf : Gfunction_t R GM X)
    (hcols : gf.dfdxyz.cols = gf.NCLUSTER) (i j : Nat) (hi : i < gf.NATOM * 3)
    (hj : j < gf.NCLUSTER) :
    (scale_dfdxyz u gf).dfdxyz.get i j = gf.dfdxyz.get i j * u := by
  obtain ⟨hc, hp⟩ := scale_rows u gf.NCLUSTER (gf.NATOM * 3) gf.dfdxyz hcols
  have hlt : i * gf.NCLUSTER + j < gf.NATOM * 3 * gf.NCLUSTER := by
    have : (i + 1) * gf.NCLUSTER ≤ gf.NATOM * 3 * gf.NCLUSTER :=
      Nat.mul_le_mul_right _ hi
    nlinarith
  show (forLoop (gf.NATOM * 3)
      (fun i m => forLoop gf.NCLUSTER (fun j m => m.set i j (m.get i j * u)) m) gf.dfdxyz).pool
      (i * (forLoop (gf.NATOM * 3)
        (fun i m => forLoop gf.NCLUSTER (fun j m => m.set i j (m.get i j * u)) m)
        gf.dfdxyz).cols + j) = gf.dfdxyz.pool (i * gf.dfdxyz.cols + j) * u
  rw [hc, hp, if_pos hlt, hcols]

end tensor

/-- The content of C5 for a call whose combined buffer has been built. -/
theorem grad_tensor_of_gather {R GM X P C : Type} [Zero R] [Add R] [Mul R]
    (env : Collab R GM X P C) (slot : Option (bpnn_t R GM X P C)) (nd : Nat)
    (xyz1 xyz2 grad1 grad2 : List R) (atoms1 atoms2 : List String) (inp : Gathered R)
    (hg : gather nd xyz1 xyz2 atoms1 atoms2 = some inp) :
    ∃ g gf e t,
      get_eng_2h2o_grad env slot nd xyz1 xyz2 grad1 grad2 atoms1 atoms2 = some g ∧
      gf = prepared env nd inp.allxyz inp.atoms (evaluator env slot).gf ∧
      g.obj.energy_ = some e ∧
      (∀ i, i < gf.NCLUSTER → e i = forLoop gf.NATOM
        (fun atom acc => acc + (atom_out env gf (evaluator env slot).nets atom).2 i) 0) ∧
      g.dfdG.length = gf.NATOM ∧
      (∀ atom, atom < gf.NATOM → g.dfdG[atom]? = some
        (copy_into (nd * gf.G_param_max_size (gf.TYPE_EACHATOM atom))
          (env.backward ((evaluator env slot).nets (gf.TYPE_EACHATOM atom)).params
            (atom_out env gf (evaluator env slot).nets atom).1 gf.switch_factor gf.NCLUSTER 1).2
          (init_mtx_in_mem (gf.G_param_max_size (gf.TYPE_EACHATOM atom)) nd))) ∧
      t = env.get_dfdx_from_switch 2 e
        (env.make_grd g.dfdG
          { gf with dfdxyz := init_mtx_in_mem (gf.NATOM * 3) gf.NCLUSTER }) ∧
      g.obj.gf = scale_dfdxyz env.EUNIT t ∧
      (t.dfdxyz.cols = t.NCLUSTER → ∀ i j, i < t.NATOM * 3 → j < t.NCLUSTER →
        g.obj.gf.dfdxyz.get i j = t.dfdxyz.get i j * env.EUNIT) ∧
      (g.grad1, g.grad2)
        = (deinterleave g.obj.gf.dfdxyz.pool inp.a1 inp.a2 nd (0, grad1, grad2)).2 := by
  obtain ⟨g, hgr, _, hd, _, ⟨e, he, hsum, hgf⟩, hout⟩ :=
    get_eng_2h2o_grad_eq env slot nd xyz1 xyz2 grad1 grad2 atoms1 atoms2 _ hg
  refine ⟨g, _, e, _, hgr, rfl, he, ?_, ?_, ?_, rfl, hgf, ?_, hout⟩
  · intro i hi
    rw [hsum, if_pos hi]
  · rw [hd, List.length_map, List.length_range]
  · intro atom hat
    rw [hd, List.getElem?_map, List.getElem?_range hat]
    rfl
  · intro hcols i j hi hj
    rw [hgf]
    exact scale_dfdxyz_get env.EUNIT _ hcols i j hi hj

/-- C5: the tensor from which `grad1` and `grad2` are filled, whenever the gradient-returning
overload returns.  With `gf` the evaluator state after `cal_switch(2)` and `e` the buffer
`energy_` (the un-switched per-configuration sums of the network outputs), the vector `dfdG`
holds for every atom the result of `backward` seeded by `switch_factor` with width `1`; the
tensor is the fresh zero matrix of `NATOM*3` rows and `NCLUSTER` columns, passed through
`make_grd(dfdG)` and then `get_dfdx_from_switch(2, e)`, and finally scaled: provided the two
collaborators left it with `NCLUSTER` columns, every entry `[i][j]` is the entry before scaling
times `EUNIT`, once.  The call does return for every `nd ≥ 1` whose triple fits `size_t` and
whose atom counts fit `int`. -/
theorem get_eng_2h2o_grad_tensor {R GM X P C : Type} [Zero R] [Add R] [Mul R]
    (env : Collab R GM X P C) (slot : Option (bpnn_t R GM X P C)) (nd : Nat)
    (xyz1 xyz2 grad1 grad2 : List R) (atoms1 atoms2 : List String) :
    (∀ g, get_eng_2h2o_grad env slot nd xyz1 xyz2 grad1 grad2 atoms1 atoms2 = some g →
      ∃ inp gf e t,
        gather nd xyz1 xyz2 atoms1 atoms2 = some inp ∧
        gf = prepared env nd inp.allxyz inp.atoms (evaluator env slot).gf ∧
        g.obj.energy_ = some e ∧
        (∀ i, i < gf.NCLUSTER → e i = forLoop gf.NATOM
          (fun atom acc => acc + (atom_out env gf (evaluator env slot).nets atom).2 i) 0) ∧
        g.dfdG.length = gf.NATOM ∧
        (∀ atom, atom < gf.NATOM → g.dfdG[atom]? = some
          (copy_into (nd * gf.G_param_max_size (gf.TYPE_EACHATOM atom))
            (env.backward ((evaluator env slot).nets (gf.TYPE_EACHATOM atom)).params
              (atom_out env gf (evaluator env slot).nets atom).1 gf.switch_factor
              gf.NCLUSTER 1).2
            (init_mtx_in_mem (gf.G_param_max_size (gf.TYPE_EACHATOM atom)) nd))) ∧
        t = env.get_dfdx_from_switch 2 e
          (env.make_grd g.dfdG
            { gf with dfdxyz := init_mtx_in_mem (gf.NATOM * 3) gf.NCLUSTER }) ∧
        g.obj.gf = scale_dfdxyz env.EUNIT t ∧
        (t.dfdxyz.cols = t.NCLUSTER → ∀ i j, i < t.NATOM * 3 → j < t.NCLUSTER →
          g.obj.gf.dfdxyz.get i j = t.dfdxyz.get i j * env.EUNIT) ∧
        (g.grad1, g.grad2)
          = (deinterleave g.obj.gf.dfdxyz.pool inp.a1 inp.a2 nd (0, grad1, grad2)).2) ∧
    (0 < nd → 3 * nd < SIZE_MOD → xyz1.length / (3 * nd) ≤ INT_MAX →
      xyz2.length / (3 * nd) ≤ INT_MAX →
      ∃ g, get_eng_2h2o_grad env slot nd xyz1 xyz2 grad1 grad2 atoms1 atoms2 = some g) := by
  constructor
  · intro g hgs
    obtain ⟨inp, hg⟩ :=
      gather_of_get_eng_2h2o_grad env slot nd xyz1 xyz2 grad1 grad2 atoms1 atoms2 g hgs
    obtain ⟨g', gf, e, t, hg', hP⟩ := grad_tensor_of_gather env slot nd xyz1 xyz2 grad1
      grad2 atoms1 atoms2 inp hg
    have e' : g = g' := Option.some.inj (hgs.symm.trans hg')
    rw [e']
    exact ⟨inp, gf, e, t, hg, hP⟩
  · intro hnd hsz h1 h2
    obtain ⟨g, _, _, _, hg, _⟩ := grad_tensor_of_gather env slot nd xyz1 xyz2 grad1 grad2
      atoms1 atoms2 _ (gather_eq nd xyz1 xyz2 atoms1 atoms2 hnd hsz h1 h2)
    exact ⟨g, hg⟩

/-- Witness of C5: on the concrete instance the tensor keeps its two columns, and its 36
entries are each scaled once. -/
theorem get_eng_2h2o_grad_tensor_witness :
    (0 < 2 ∧ 3 * 2 < SIZE_MOD ∧ demo_xyz1.length / (3 * 2) ≤ INT_MAX ∧
      demo_xyz2.length / (3 * 2) ≤ INT_MAX) ∧
    ∃ g t, get_eng_2h2o_grad demo none 2 demo_xyz1 demo_xyz2 [] [] [] [] = some g ∧
      t.dfdxyz.cols = t.NCLUSTER ∧ t.NATOM * 3 = 18 ∧ t.NCLUSTER = 2 ∧
      g.obj.gf = scale_dfdxyz demo.EUNIT t ∧
      ∀ i j, i < t.NATOM * 3 → j < t.NCLUSTER →
        g.obj.gf.dfdxyz.get i j = t.dfdxyz.get i j * demo.EUNIT := by
  refine ⟨⟨by decide, by decide, by decide, by decide⟩, ?_⟩
  obtain ⟨g, hg⟩ :=
    (get_eng_2h2o_grad_tensor demo none 2 demo_xyz1 demo_xyz2 [] [] [] []).2
      (by decide) (by decide) (by decide) (by decide)
  obtain ⟨inp, gf, e, t, _, hgf, _, _, _, _, ht, hscale, hentry, _⟩ :=
    (get_eng_2h2o_grad_tensor demo none 2 demo_xyz1 demo_xyz2 [] [] [] []).1 g hg
  have hcols : t.dfdxyz.cols = t.NCLUSTER := by rw [ht, hgf]; rfl
  have hrows : t.NATOM * 3 = 18 := by rw [ht, hgf]; rfl
  have hncl : t.NCLUSTER = 2 := by rw [ht, hgf]; rfl
  exact ⟨g, t, hg, hcols, hrows, hncl, hscale, hentry hcols⟩

/-! ## The copy of the tensor into `grad1` and `grad2` -/

section copyout

variable {R : Type}

theorem chunk_getElem? (xs : List R) (m i k : Nat) (hk : k < m) :
    (chunk xs m i)[k]? = xs[i * m + k]? := by
  unfold chunk
  rw [List.getElem?_take_of_lt hk, List.getElem?_drop]

theorem pull_atoms_eq (pool : Nat → R) (a : Nat) :
    ∀ (grd : Nat) (out : List R),
      pull_atoms pool a (grd, out)
        = (grd + 3 * a, out ++ (List.range (3 * a)).map (fun k => pool (grd + k))) := by
  induction a with
  | zero => intro grd out; simp [pull_atoms]
  | succ a ih =>
    intro grd out
    have e : 3 * (a + 1) = 3 + 3 * a := by ring
    rw [pull_atoms, ih, e, List.range_add]
    simp [List.range_succ, Nat.add_assoc]

/-- Closed form of the copy loop started at configuration `s`: configuration `i` contributes
the `3 a1` pool values from `3 (a1 + a2) i` on to `grad1` and the next `3 a2` to `grad2`. -/
theorem deinterleave_eq (pool : Nat → R) (a1 a2 n : Nat) :
    ∀ (s : Nat) (grad1 grad2 : List R),
      deinterleave pool a1 a2 n (s * (3 * (a1 + a2)), grad1, grad2) =
        ((s + n) * (3 * (a1 + a2)),
         grad1 ++ (List.range' s n).flatMap (fun i =>
           (List.range (3 * a1)).map (fun k => pool (i * (3 * (a1 + a2)) + k))),
         grad2 ++ (List.range' s n).flatMap (fun i =>
           (List.range (3 * a2)).map (fun k => pool (i * (3 * (a1 + a2)) + 3 * a1 + k)))) := by
  induction n with
  | zero => intro s grad1 grad2; simp [deinterleave]
  | succ n ih =>
    intro s grad1 grad2
    have e1 : s * (3 * (a1 + a2)) + 3 * a1 + 3 * a2 = (s + 1) * (3 * (a1 + a2)) := by ring
    have e3 : s + 1 + n = s + (n + 1) := by ring
    rw [deinterleave]
    simp only [pull_atoms_eq]
    rw [e1, ih (s + 1), e3]
    simp [List.range', List.append_assoc]

/-- The layout of `grad1` as the source fills it, for every `nd`: the value at relative position
`3 (i a1 + j) + c` is the pool entry `3 (i (a1 + a2) + j) + c` of the tensor. -/
theorem deinterleave_grad1 (pool : Nat → R) (a1 a2 nd : Nat) (grad1 grad2 : List R)
    (i j c : Nat) (hi : i < nd) (hj : j < a1) (hc : c < 3) :
    (deinterleave pool a1 a2 nd (0, grad1, grad2)).2.1[grad1.length + (3 * (i * a1 + j) + c)]?
      = some (pool (3 * (i * (a1 + a2) + j) + c)) := by
  have h := deinterleave_eq pool a1 a2 nd 0 grad1 grad2
  simp only [Nat.zero_mul, Nat.zero_add, ← List.range_eq_range'] at h
  rw [h]
  simp only []
  rw [List.getElem?_append_right (Nat.le_add_right _ _), Nat.add_sub_cancel_left]
  obtain ⟨_, hchunk⟩ := chunk_flatMap
    (fun i => (List.range (3 * a1)).map (fun k => pool (i * (3 * (a1 + a2)) + k)))
    (3 * a1) nd (fun i _ => by simp)
  have hk : 3 * j + c < 3 * a1 := by omega
  have e : 3 * (i * a1 + j) + c = i * (3 * a1) + (3 * j + c) := by ring
  rw [e, ← chunk_getElem? _ (3 * a1) i (3 * j + c) hk, hchunk i hi, List.getElem?_map,
    List.getElem?_range hk]
  simp only [Option.map_some']
  congr 2
  ring

end copyout

/-- What the gradient-returning overload hands back in `grad1`, for every `nd`: at relative
position `3 (i a1 + j) + c` stands pool entry `3 (i (a1 + a2) + j) + c` of the scaled tensor,
which is `dfdxyz[3 j + c][i]` when `nd = 1` but not in general. -/
theorem get_eng_2h2o_grad_layout {R GM X P C : Type} [Zero R] [Add R] [Mul R]
    (env : Collab R GM X P C) (slot : Option (bpnn_t R GM X P C)) (nd : Nat)
    (xyz1 xyz2 grad1 grad2 : List R) (atoms1 atoms2 : List String) (g : GradCall R GM X P C)
    (hgs : get_eng_2h2o_grad env slot nd xyz1 xyz2 grad1 grad2 atoms1 atoms2 = some g) :
    ∃ inp, gather nd xyz1 xyz2 atoms1 atoms2 = some inp ∧
      ∀ i j c, i < nd → j < inp.a1 → c < 3 →
        g.grad1[grad1.length + (3 * (i * inp.a1 + j) + c)]?
          = some (g.obj.gf.dfdxyz.pool (3 * (i * (inp.a1 + inp.a2) + j) + c)) := by
  obtain ⟨inp, hg⟩ :=
    gather_of_get_eng_2h2o_grad env slot nd xyz1 xyz2 grad1 grad2 atoms1 atoms2 g hgs
  obtain ⟨g', hg', _, _, _, _, hout⟩ :=
    get_eng_2h2o_grad_eq env slot nd xyz1 xyz2 grad1 grad2 atoms1 atoms2 inp hg
  have e : g = g' := Option.some.inj (hgs.symm.trans hg')
  refine ⟨inp, hg, fun i j c hi hj hc => ?_⟩
  rw [e]
  have h1 : g'.grad1
      = (deinterleave g'.obj.gf.dfdxyz.pool inp.a1 inp.a2 nd (0, grad1, grad2)).2.1 :=
    congrArg Prod.fst hout
  rw [h1]
  exact deinterleave_grad1 _ _ _ _ _ _ i j c hi hj hc

/-- C3, evaluated on a batch of two configurations (`nd = 2`, three atoms per molecule, so
`a1 + a2 = NATOM = 6` and `NCLUSTER = nd = 2`): the value appended to `grad1` at position
`1 = 3*(0*a1 + 0) + 1` (configuration 0, atom 0, component y) is the tensor entry
`dfdxyz[0][1]`, the x-derivative of atom 0 in configuration 1, and differs from the entry
`dfdxyz[1][0]` that belongs at this position. -/
theorem get_eng_2h2o_grad_layout_batch :
    (gather 2 demo_xyz1 demo_xyz2 [] []).map (fun inp => (inp.a1, inp.a2)) = some (3, 3) ∧
    (get_eng_2h2o_grad demo none 2 demo_xyz1 demo_xyz2 [] [] [] []).map
      (fun g => (g.obj.gf.NATOM, g.obj.gf.NCLUSTER, g.obj.gf.dfdxyz.rows, g.obj.gf.dfdxyz.cols))
      = some (6, 2, 18, 2) ∧
    (get_eng_2h2o_grad demo none 2 demo_xyz1 demo_xyz2 [] [] [] []).map
      (fun g => (g.grad1[1]?, g.obj.gf.dfdxyz.get 0 1, g.obj.gf.dfdxyz.get 1 0))
      = some (some 1302, 1302, 366) :=
  ⟨by decide, by decide!, by decide!⟩

/-! ## The label check -/

theorem label_check_nonempty {R : Type} (a1 a2 : Nat) (atoms1 atoms2 : List String)
    (hne : atoms1 ≠ []) :
    label_check (R := R) a1 a2 atoms1 atoms2 =
      ((if a1 ≠ atoms1.length then [Event.cerr " Molecule 1 type inconsistent! "] else []) ++
       (if a2 ≠ atoms2.length then [Event.cerr " Molecule 2 type inconsistent! "] else []),
       atoms1 ++ atoms2) := by
  unfold label_check
  have h : atoms1.isEmpty = false := by
    cases atoms1 with
    | nil => exact absurd rfl hne
    | cons a l => rfl
  simp [h]

/-- C6: both coordinate-vector overloads, called with a non-empty `atoms1`, return (they do not
abort) for every `nd ≥ 1` in range; they write the warning for molecule 1 when the length of
`atoms1` differs from `a1 = |xyz1| / (3 nd)` and the warning for molecule 2 when the length of
`atoms2` differs from `a2 = |xyz2| / (3 nd)`; they pass `atoms1 ++ atoms2` to
`load_xyz_and_type_from_vectors`; and the energy they return is the usual formula `energy_of`
on the state loaded from these labels. -/
theorem get_eng_2h2o_label_warning {R GM X P C : Type} [Zero R] [Add R] [Mul R]
    (env : Collab R GM X P C) (slot slot_g : Option (bpnn_t R GM X P C)) (nd : Nat)
    (xyz1 xyz2 grad1 grad2 : List R) (atoms1 atoms2 : List String)
    (hnd : 0 < nd) (hsz : 3 * nd < SIZE_MOD)
    (h1 : xyz1.length / (3 * nd) ≤ INT_MAX) (h2 : xyz2.length / (3 * nd) ≤ INT_MAX)
    (hne : atoms1 ≠ []) :
    ∃ r g inp, get_eng_2h2o env slot nd xyz1 xyz2 atoms1 atoms2 = some r ∧
      get_eng_2h2o_grad env slot_g nd xyz1 xyz2 grad1 grad2 atoms1 atoms2 = some g ∧
      gather nd xyz1 xyz2 atoms1 atoms2 = some inp ∧
      (atoms1.length ≠ xyz1.length / (3 * nd) →
        Event.cerr " Molecule 1 type inconsistent! " ∈ r.log ∧
        Event.cerr " Molecule 1 type inconsistent! " ∈ g.log) ∧
      (atoms2.length ≠ xyz2.length / (3 * nd) →
        Event.cerr " Molecule 2 type inconsistent! " ∈ r.log ∧
        Event.cerr " Molecule 2 type inconsistent! " ∈ g.log) ∧
      Event.load_xyz_and_type_from_vectors nd inp.allxyz (atoms1 ++ atoms2) ∈ r.log ∧
      Event.load_xyz_and_type_from_vectors nd inp.allxyz (atoms1 ++ atoms2) ∈ g.log ∧
      r.energy = energy_of env
        (prepared env nd inp.allxyz (atoms1 ++ atoms2) (evaluator env slot).gf)
        (evaluator env slot).nets ∧
      g.energy = energy_of env
        (prepared env nd inp.allxyz (atoms1 ++ atoms2) (evaluator env slot_g).gf)
        (evaluator env slot_g).nets := by
  have hg := gather_eq nd xyz1 xyz2 atoms1 atoms2 hnd hsz h1 h2
  obtain ⟨r, hr, hrgf, _, he, _, hrl⟩ :=
    get_eng_2h2o_eq env slot nd xyz1 xyz2 atoms1 atoms2 _ hg
  obtain ⟨g, hgr, hge, _, hgl, _⟩ :=
    get_eng_2h2o_grad_eq env slot_g nd xyz1 xyz2 grad1 grad2 atoms1 atoms2 _ hg
  have hlc := label_check_nonempty (R := R) (xyz1.length / (3 * nd)) (xyz2.length / (3 * nd))
    atoms1 atoms2 hne
  simp only [hlc] at hrgf he hrl hge hgl hg
  refine ⟨r, g, _, hr, hgr, hg, ?_, ?_, ?_, ?_, ?_, ?_⟩
  · intro hbad
    rw [hrl, hgl]
    simp [Ne.symm hbad]
  · intro hbad
    rw [hrl, hgl]
    simp [Ne.symm hbad]
  · rw [hrl]; simp
  · rw [hgl]; simp
  · rw [he, hrgf]; rfl
  · rw [hge]; rfl

/-- Witness of C6: one label for molecule 1 and none for molecule 2, where three each are
expected; both warnings appear and both overloads return. -/
theorem get_eng_2h2o_label_warning_witness :
    (0 < 2 ∧ 3 * 2 < SIZE_MOD ∧ demo_xyz1.length / (3 * 2) ≤ INT_MAX ∧
      demo_xyz2.length / (3 * 2) ≤ INT_MAX ∧ ["O"] ≠ ([] : List String) ∧
      ["O"].length ≠ demo_xyz1.length / (3 * 2) ∧
      ([] : List String).length ≠ demo_xyz2.length / (3 * 2)) ∧
    ∃ r g, get_eng_2h2o demo none 2 demo_xyz1 demo_xyz2 ["O"] [] = some r ∧
      get_eng_2h2o_grad demo none 2 demo_xyz1 demo_xyz2 [] [] ["O"] [] = some g ∧
      Event.cerr " Molecule 1 type inconsistent! " ∈ r.log ∧
      Event.cerr " Molecule 1 type inconsistent! " ∈ g.log ∧
      Event.cerr " Molecule 2 type inconsistent! " ∈ r.log ∧
      Event.cerr " Molecule 2 type inconsistent! " ∈ g.log := by
  refine ⟨⟨by decide, by decide, by decide, by decide, by decide, by decide, by decide⟩, ?_⟩
  obtain ⟨r, g, inp, hr, hg, _, w1, w2, _⟩ :=
    get_eng_2h2o_label_warning demo none none 2 demo_xyz1 demo_xyz2 [] [] ["O"] []
      (by decide) (by decide) (by decide) (by decide) (by decide)
  exact ⟨r, g, hr, hg, (w1 (by decide)).1, (w1 (by decide)).2, (w2 (by decide)).1,
    (w2 (by decide)).2⟩

/-! ## The file entry points -/

section file

variable {R GM X P C : Type}

/-- The network calls of the backward-only loop of the file entry points, in order. -/
theorem backward_sweep_log [Zero R] (env : Collab R GM X P C) (gf : Gfunction_t R GM X)
    (cols n : Nat) (s : Sweep R P C) :
    (forLoop n (backward_atom env gf cols) s).log
      = s.log ++ (List.range n).map
          (fun atom => Event.backward (gf.TYPE_EACHATOM atom) atom) := by
  induction n with
  | zero => simp [forLoop_zero]
  | succ n ih =>
    rw [forLoop_succ, List.range_succ, List.map_append]
    simp [backward_atom, ih]

/-- The log of a file entry point with `ifgrad = true`: all `predict` calls, atom after atom,
come before all `backward` calls. -/
theorem file_eval_log [Zero R] [Add R] [Mul R] (env : Collab R GM X P C)
    (body switch_n dfdx_n : Nat) (slot : Option (bpnn_t R GM X P C)) (xyzfile : String) :
    ∃ gf : Gfunction_t R GM X,
      (file_eval env body switch_n dfdx_n slot xyzfile true).log =
        (static_local (bpnn_t.default env, []) slot).2 ++
        [Event.load_xyzfile xyzfile, Event.load_seq body, Event.load_paramfile body,
         Event.load_scale body, Event.init_allNNs 2 body, Event.make_G,
         Event.cal_switch switch_n] ++
        (List.range gf.NATOM).map (fun atom => Event.predict (gf.TYPE_EACHATOM atom) atom) ++
        (List.range gf.NATOM).map (fun atom => Event.backward (gf.TYPE_EACHATOM atom) atom) ++
        [Event.make_grd, Event.get_dfdx_from_switch dfdx_n,
         Event.cout " gradient is done, but not returned "] := by
  refine ⟨env.cal_switch switch_n (env.make_G (env.load_scale body (env.load_paramfile body
    (env.load_seq body (env.load_xyzfile xyzfile
      (static_local (bpnn_t.default env, []) slot).1.gf))))), ?_⟩
  unfold file_eval
  simp only [if_true, predict_sweep_log, backward_sweep_log, List.nil_append]

end file

/-- C9, evaluated on the concrete instance for a water dimer (`get_eng_2h2o`) and a water
trimer (`get_eng_3h2o`) with `ifgrad = true`: every `backward` call comes after all `predict`
calls, so the `backward` of atom 0 (an oxygen, network 0) does not follow the `predict` of
atom 0 but the one of the last hydrogen, and the last `predict` on network 0 was the one of the
last oxygen.  The matrices `backward` returns are those of the last atom of each type
(24 and 54 for the dimer), not the ones the atoms' own forward states give
(6, 18, 27, 24, 45, 54). -/
theorem file_backward_uses_last_forward_state :
    (get_eng_2h2o_file demo none "dimer.xyz" true).log.filter Event.isNetCall =
      [Event.predict 0 0, Event.predict 1 1, Event.predict 1 2, Event.predict 0 3,
       Event.predict 1 4, Event.predict 1 5, Event.backward 0 0, Event.backward 1 1,
       Event.backward 1 2, Event.backward 0 3, Event.backward 1 4, Event.backward 1 5] ∧
    (get_eng_3h2o demo none "trimer.xyz" true).log.filter Event.isNetCall =
      [Event.predict 0 0, Event.predict 1 1, Event.predict 1 2, Event.predict 0 3,
       Event.predict 1 4, Event.predict 1 5, Event.predict 0 6, Event.predict 1 7,
       Event.predict 1 8, Event.backward 0 0, Event.backward 1 1, Event.backward 1 2,
       Event.backward 0 3, Event.backward 1 4, Event.backward 1 5, Event.backward 0 6,
       Event.backward 1 7, Event.backward 1 8] ∧
    (get_eng_2h2o_file demo none "dimer.xyz" true).dfdG.map (fun m => m.pool 0)
      = [24, 54, 54, 24, 54, 54] ∧
    (List.range 6).map (fun atom =>
      (grd_of demo (get_eng_2h2o_file demo none "dimer.xyz" true).obj.gf 1
        (get_eng_2h2o_file demo none "dimer.xyz" true).obj.nets atom
        (atom_out demo (get_eng_2h2o_file demo none "dimer.xyz" true).obj.gf
          (get_eng_2h2o_file demo none "dimer.xyz" true).obj.nets atom).1).pool 0)
      = [6, 18, 27, 24, 45, 54] :=
  ⟨by decide!, by decide!, by decide!, by decide!⟩

/-- C10, for every collaborator, evaluator state and file: `get_eng_3h2o` with `ifgrad = true`
calls `cal_switch(3)` but `get_dfdx_from_switch(2, energy_)`; it never calls
`get_dfdx_from_switch` with topology size 3, and the tensor it leaves is assembled with
topology size 2 from the un-switched buffer `energy_`. -/
theorem get_eng_3h2o_switch_topology {R GM X P C : Type} [Zero R] [Add R] [Mul R]
    (env : Collab R GM X P C) (slot : Option (bpnn_t R GM X P C)) (xyzfile : String) :
    Event.cal_switch 3 ∈ (get_eng_3h2o env slot xyzfile true).log ∧
    Event.get_dfdx_from_switch 2 ∈ (get_eng_3h2o env slot xyzfile true).log ∧
    Event.get_dfdx_from_switch 3 ∉ (get_eng_3h2o env slot xyzfile true).log ∧
    ∃ gf e, (get_eng_3h2o env slot xyzfile true).obj.energy_ = some e ∧
      (get_eng_3h2o env slot xyzfile true).obj.gf
        = assemble env 2 (get_eng_3h2o env slot xyzfile true).dfdG e (env.cal_switch 3 gf) := by
  obtain ⟨gf, hl⟩ := file_eval_log env 3 3 2 slot xyzfile
  have hs : (static_local (bpnn_t.default env, ([] : List (Event R))) slot).2 = [] := by
    cases slot <;> rfl
  unfold get_eng_3h2o
  rw [hl, hs]
  refine ⟨by simp, by simp, by simp, ?_⟩
  exact ⟨_, _, rfl, rfl⟩

/-! ## Energies under per-configuration collaborators -/

section perconfig

variable {R GM X P C : Type}

theorem label_check_snd (a1 a2 : Nat) (atoms1 atoms2 : List String) :
    (label_check (R := R) a1 a2 atoms1 atoms2).2 = passed_labels atoms1 atoms2 := by
  unfold label_check passed_labels
  split <;> rfl

/-- Under `PerConfiguration` the energy formula is a sum of one term per configuration. -/
theorem energy_of_per_config [CommSemiring R] (env : Collab R GM X P C) (labels : List String)
    (Good : bpnn_t R GM X P C → Prop) (natom : Nat) (atomE : Nat → List R → R)
    (sw : List R → R) (hind : PerConfiguration env labels Good natom atomE sw)
    (obj : bpnn_t R GM X P C) (hgood : Good obj) (nd : Nat) (allxyz : List R) :
    energy_of env (prepared env nd allxyz labels obj.gf) obj.nets
      = (∑ i ∈ Finset.range nd, config_term natom atomE sw (block allxyz nd i)) * env.EUNIT := by
  unfold energy_of
  rw [switched_sum_eq_sum, hind.ncluster obj nd allxyz hgood, hind.natom_eq obj nd allxyz hgood]
  congr 1
  refine Finset.sum_congr rfl (fun i hi => ?_)
  have hi' : i < nd := Finset.mem_range.mp hi
  unfold config_term
  rw [hind.switch obj nd allxyz hgood i hi']
  congr 1
  exact Finset.sum_congr rfl
    (fun atom ha => hind.atomic obj nd allxyz hgood atom i (Finset.mem_range.mp ha) hi')

/-- Under `PerConfiguration` the overload without gradients returns the sum over the
configurations of the term of each configuration's own coordinates, times `EUNIT`, and
`energy_[i] * switch_factor[i]` is the term of configuration `i`. -/
theorem get_eng_2h2o_per_config [CommSemiring R] (env : Collab R GM X P C)
    (Good : bpnn_t R GM X P C → Prop) (natom : Nat) (atomE : Nat → List R → R)
    (sw : List R → R) (slot : Option (bpnn_t R GM X P C)) (nd : Nat) (xyz1 xyz2 : List R)
    (atoms1 atoms2 : List String)
    (hind : PerConfiguration env (passed_labels atoms1 atoms2) Good natom atomE sw)
    (hgood : Good (evaluator env slot))
    (hnd : 0 < nd) (hsz : 3 * nd < SIZE_MOD)
    (h1 : xyz1.length / (3 * nd) ≤ INT_MAX) (h2 : xyz2.length / (3 * nd) ≤ INT_MAX) :
    ∃ r e, get_eng_2h2o env slot nd xyz1 xyz2 atoms1 atoms2 = some r ∧
      r.obj.energy_ = some e ∧
      (∀ i, i < nd → e i * r.obj.gf.switch_factor i = config_term natom atomE sw
        (chunk xyz1 (3 * (xyz1.length / (3 * nd))) i ++
         chunk xyz2 (3 * (xyz2.length / (3 * nd))) i)) ∧
      r.energy = (∑ i ∈ Finset.range nd, config_term natom atomE sw
        (chunk xyz1 (3 * (xyz1.length / (3 * nd))) i ++
         chunk xyz2 (3 * (xyz2.length / (3 * nd))) i)) * env.EUNIT := by
  have hg := gather_eq nd xyz1 xyz2 atoms1 atoms2 hnd hsz h1 h2
  obtain ⟨r, hr, hgf, _, he, hbuf, _⟩ :=
    get_eng_2h2o_eq env slot nd xyz1 xyz2 atoms1 atoms2 _ hg
  simp only [label_check_snd] at hgf
  have q1 : 3 * (xyz1.length / (3 * nd)) * nd ≤ xyz1.length := by
    have := Nat.div_mul_le_self xyz1.length (3 * nd)
    nlinarith
  have q2 : 3 * (xyz2.length / (3 * nd)) * nd ≤ xyz2.length := by
    have := Nat.div_mul_le_self xyz2.length (3 * nd)
    nlinarith
  have hlen : ∀ i, i < nd →
      (chunk xyz1 (3 * (xyz1.length / (3 * nd))) i ++
        chunk xyz2 (3 * (xyz2.length / (3 * nd))) i).length
        = 3 * (xyz1.length / (3 * nd)) + 3 * (xyz2.length / (3 * nd)) := by
    intro i hi
    have b1 : (i + 1) * (3 * (xyz1.length / (3 * nd))) ≤ xyz1.length :=
      le_trans (Nat.mul_le_mul_right _ hi) (by rw [Nat.mul_comm]; exact q1)
    have b2 : (i + 1) * (3 * (xyz2.length / (3 * nd))) ≤ xyz2.length :=
      le_trans (Nat.mul_le_mul_right _ hi) (by rw [Nat.mul_comm]; exact q2)
    rw [List.length_append, chunk_length _ _ _ b1, chunk_length _ _ _ b2]
  have hblk : ∀ i, i < nd →
      block ((List.range nd).flatMap fun i =>
          chunk xyz1 (3 * (xyz1.length / (3 * nd))) i ++
            chunk xyz2 (3 * (xyz2.length / (3 * nd))) i) nd i
        = chunk xyz1 (3 * (xyz1.length / (3 * nd))) i ++
            chunk xyz2 (3 * (xyz2.length / (3 * nd))) i :=
    block_flatMap
      (fun i => chunk xyz1 (3 * (xyz1.length / (3 * nd))) i ++
        chunk xyz2 (3 * (xyz2.length / (3 * nd))) i) _ nd hnd hlen
  have hen : r.energy = energy_of env r.obj.gf (evaluator env slot).nets := he
  have hgf' : r.obj.gf = prepared env nd
      ((List.range nd).flatMap fun i =>
        chunk xyz1 (3 * (xyz1.length / (3 * nd))) i ++
          chunk xyz2 (3 * (xyz2.length / (3 * nd))) i)
      (passed_labels atoms1 atoms2) (evaluator env slot).gf := hgf
  have hncl : r.obj.gf.NCLUSTER = nd := by
    rw [hgf']; exact hind.ncluster _ nd _ hgood
  have hnat : r.obj.gf.NATOM = natom := by
    rw [hgf']; exact hind.natom_eq _ nd _ hgood
  have hsw : ∀ i, i < nd → r.obj.gf.switch_factor i
      = sw (chunk xyz1 (3 * (xyz1.length / (3 * nd))) i ++
          chunk xyz2 (3 * (xyz2.length / (3 * nd))) i) := by
    intro i hi
    rw [hgf', hind.switch _ nd _ hgood i hi, hblk i hi]
  have hat : ∀ atom i, atom < natom → i < nd →
      (atom_out env r.obj.gf (evaluator env slot).nets atom).2 i
        = atomE atom (chunk xyz1 (3 * (xyz1.length / (3 * nd))) i ++
            chunk xyz2 (3 * (xyz2.length / (3 * nd))) i) := by
    intro atom i ha hi
    rw [hgf', hind.atomic _ nd _ hgood atom i ha hi, hblk i hi]
  refine ⟨r, _, hr, hbuf, ?_, ?_⟩
  · intro i hi
    simp only [hncl, hi, if_true, forLoop_add_eq_sum, hnat]
    unfold config_term
    rw [hsw i hi]
    congr 1
    exact Finset.sum_congr rfl (fun atom ha => hat atom i (Finset.mem_range.mp ha) hi)
  · rw [hen, hgf', energy_of_per_config env _ Good natom atomE sw hind _ hgood]
    congr 1
    exact Finset.sum_congr rfl (fun i hi => by rw [hblk i (Finset.mem_range.mp hi)])

end perconfig

/-- C7: batch-size invariance.  Assume `make_G`, `predict` and `cal_switch` act on each
configuration on its own (`PerConfiguration`).  For a batch of `k ≥ 1` configurations, with
`a1 = |xyz1| / (3 k)` and `a2 = |xyz2| / (3 k)`, call configuration `i` alone with `nd = 1` on the
`i`-th block of `3 a1` values of `xyz1` and the `i`-th block of `3 a2` values of `xyz2`.  Then
the batch call and the `k` single calls all return, the term `energy_[i] * switch_factor[i]` of
the batch equals the term `energy_[0] * switch_factor[0]` of the `i`-th single call, and in exact
arithmetic the energy of the batch is the sum of the `k` single energies. -/
theorem get_eng_2h2o_batch_is_sum {R GM X P C : Type} [CommSemiring R]
    (env : Collab R GM X P C) (Good : bpnn_t R GM X P C → Prop) (natom : Nat)
    (atomE : Nat → List R → R) (sw : List R → R) (slot : Option (bpnn_t R GM X P C))
    (slots : Nat → Option (bpnn_t R GM X P C)) (k : Nat) (xyz1 xyz2 : List R)
    (atoms1 atoms2 : List String)
    (hind : PerConfiguration env (passed_labels atoms1 atoms2) Good natom atomE sw)
    (hgood : Good (evaluator env slot))
    (hgoods : ∀ i, i < k → Good (evaluator env (slots i)))
    (hk : 0 < k) (hsz : 3 * k < SIZE_MOD)
    (h1 : xyz1.length / (3 * k) ≤ INT_MAX) (h2 : xyz2.length / (3 * k) ≤ INT_MAX) :
    ∃ (rb : Call R GM X P C) (eb : Nat → R) (rs : Nat → Call R GM X P C) (es : Nat → Nat → R),
      get_eng_2h2o env slot k xyz1 xyz2 atoms1 atoms2 = some rb ∧
      rb.obj.energy_ = some eb ∧
      (∀ i, i < k →
        get_eng_2h2o env (slots i) 1 (chunk xyz1 (3 * (xyz1.length / (3 * k))) i)
          (chunk xyz2 (3 * (xyz2.length / (3 * k))) i) atoms1 atoms2 = some (rs i) ∧
        (rs i).obj.energy_ = some (es i) ∧
        eb i * rb.obj.gf.switch_factor i = es i 0 * (rs i).obj.gf.switch_factor 0) ∧
      rb.energy = ∑ i ∈ Finset.range k, (rs i).energy := by
  obtain ⟨rb, eb, hrb, heb, hterm, hen⟩ := get_eng_2h2o_per_config env Good natom atomE sw slot k
    xyz1 xyz2 atoms1 atoms2 hind hgood hk hsz h1 h2
  have q1 : 3 * (xyz1.length / (3 * k)) * k ≤ xyz1.length := by
    have := Nat.div_mul_le_self xyz1.length (3 * k)
    nlinarith
  have q2 : 3 * (xyz2.length / (3 * k)) * k ≤ xyz2.length := by
    have := Nat.div_mul_le_self xyz2.length (3 * k)
    nlinarith
  have hsingle : ∀ i, ∃ (r : Call R GM X P C) (e : Nat → R), i < k →
      get_eng_2h2o env (slots i) 1 (chunk xyz1 (3 * (xyz1.length / (3 * k))) i)
        (chunk xyz2 (3 * (xyz2.length / (3 * k))) i) atoms1 atoms2 = some r ∧
      r.obj.energy_ = some e ∧
      e 0 * r.obj.gf.switch_factor 0 = config_term natom atomE sw
        (chunk xyz1 (3 * (xyz1.length / (3 * k))) i ++
         chunk xyz2 (3 * (xyz2.length / (3 * k))) i) ∧
      r.energy = config_term natom atomE sw
        (chunk xyz1 (3 * (xyz1.length / (3 * k))) i ++
         chunk xyz2 (3 * (xyz2.length / (3 * k))) i) * env.EUNIT := by
    intro i
    by_cases hi : i < k
    · have l1 : (chunk xyz1 (3 * (xyz1.length / (3 * k))) i).length
          = 3 * (xyz1.length / (3 * k)) :=
        chunk_length _ _ _
          (le_trans (Nat.mul_le_mul_right _ hi) (by rw [Nat.mul_comm]; exact q1))
      have l2 : (chunk xyz2 (3 * (xyz2.length / (3 * k))) i).length
          = 3 * (xyz2.length / (3 * k)) :=
        chunk_length _ _ _
          (le_trans (Nat.mul_le_mul_right _ hi) (by rw [Nat.mul_comm]; exact q2))
      have d1 : (chunk xyz1 (3 * (xyz1.length / (3 * k))) i).length / (3 * 1)
          = xyz1.length / (3 * k) := by
        rw [l1]; omega
      have d2 : (chunk xyz2 (3 * (xyz2.length / (3 * k))) i).length / (3 * 1)
          = xyz2.length / (3 * k) := by
        rw [l2]; omega
      obtain ⟨r, e, hr, he, ht, hsum⟩ := get_eng_2h2o_per_config env Good natom atomE sw
        (slots i) 1 (chunk xyz1 (3 * (xyz1.length / (3 * k))) i)
        (chunk xyz2 (3 * (xyz2.length / (3 * k))) i) atoms1 atoms2 hind (hgoods i hi)
        (by decide) (by decide) (by rw [d1]; exact h1) (by rw [d2]; exact h2)
      have c1 : chunk (chunk xyz1 (3 * (xyz1.length / (3 * k))) i)
          (3 * (xyz1.length / (3 * k))) 0 = chunk xyz1 (3 * (xyz1.length / (3 * k))) i :=
        chunk_zero_of_length _ _ l1
      have c2 : chunk (chunk xyz2 (3 * (xyz2.length / (3 * k))) i)
          (3 * (xyz2.length / (3 * k))) 0 = chunk xyz2 (3 * (xyz2.length / (3 * k))) i :=
        chunk_zero_of_length _ _ l2
      rw [d1, d2] at ht hsum
      refine ⟨r, e, fun _ => ⟨hr, he, ?_, ?_⟩⟩
      · rw [ht 0 (by decide), c1, c2]
      · rw [hsum, Finset.sum_range_one, c1, c2]
    · exact ⟨rb, eb, fun h => absurd h hi⟩
  choose rs es hrs using hsingle
  refine ⟨rb, eb, rs, es, hrb, heb, fun i hi => ?_, ?_⟩
  · obtain ⟨hr, he, ht, _⟩ := hrs i hi
    exact ⟨hr, he, by rw [hterm i hi, ht]⟩
  · rw [hen, Finset.sum_mul]
    exact Finset.sum_congr rfl (fun i hi => ((hrs i (Finset.mem_range.mp hi)).2.2.2).symm)

/-- The concrete instance treats each configuration on its own. -/
theorem demo_per_configuration (labels : List String) :
    PerConfiguration demo labels demo_good 6 demo_atomE demo_sw where
  ncluster := fun _ _ _ _ => rfl
  natom_eq := fun _ _ _ h => h.1
  atomic := by
    intro obj nd allxyz h atom i _ _
    show (obj.nets (obj.gf.TYPE_EACHATOM atom)).params * (block allxyz nd i).getD (3 * atom) 0
      = demo_atomE atom (block allxyz nd i)
    unfold demo_atomE
    rw [h.2.1, h.2.2]
  switch := fun _ _ _ _ _ _ => rfl

theorem demo_good_fresh : demo_good (evaluator demo none) :=
  ⟨rfl, rfl, fun _ => rfl⟩

/-- Witness of C7: a batch of two configurations against two single calls, every call being the
first on its evaluator. -/
theorem get_eng_2h2o_batch_is_sum_witness :
    (PerConfiguration demo (passed_labels [] []) demo_good 6 demo_atomE demo_sw ∧
      demo_good (evaluator demo none) ∧ 0 < 2 ∧ 3 * 2 < SIZE_MOD ∧
      demo_xyz1.length / (3 * 2) ≤ INT_MAX ∧ demo_xyz2.length / (3 * 2) ≤ INT_MAX) ∧
    ∃ (rb : Call ℤ (Nat → ℤ) (List ℤ) ℤ (Nat → ℤ)) (eb : Nat → ℤ)
      (rs : Nat → Call ℤ (Nat → ℤ) (List ℤ) ℤ (Nat → ℤ)) (es : Nat → Nat → ℤ),
      get_eng_2h2o demo none 2 demo_xyz1 demo_xyz2 [] [] = some rb ∧
      rb.obj.energy_ = some eb ∧
      (∀ i, i < 2 →
        get_eng_2h2o demo none 1 (chunk demo_xyz1 (3 * (demo_xyz1.length / (3 * 2))) i)
          (chunk demo_xyz2 (3 * (demo_xyz2.length / (3 * 2))) i) [] [] = some (rs i) ∧
        (rs i).obj.energy_ = some (es i) ∧
        eb i * rb.obj.gf.switch_factor i = es i 0 * (rs i).obj.gf.switch_factor 0) ∧
      rb.energy = ∑ i ∈ Finset.range 2, (rs i).energy :=
  ⟨⟨demo_per_configuration _, demo_good_fresh, by decide, by decide, by decide, by decide⟩,
   get_eng_2h2o_batch_is_sum demo demo_good 6 demo_atomE demo_sw none (fun _ => none) 2
     demo_xyz1 demo_xyz2 [] [] (demo_per_configuration _) demo_good_fresh
     (fun _ _ => demo_good_fresh) (by decide) (by decide) (by decide) (by decide)⟩

/-! ## Reordering the configurations -/

section permute

variable {R : Type}

/-- The reordered buffer has `nd` full blocks, and its block `i` is block `σ i` of the
original. -/
theorem permute_blocks_spec (xs : List R) (a nd : Nat) (σ : Equiv.Perm (Fin nd))
    (hnd : 0 < nd) (hq : 3 * a * nd ≤ xs.length) :
    (permute_blocks xs (3 * a) nd σ).length / (3 * nd) = a ∧
    ∀ i : Fin nd, chunk (permute_blocks xs (3 * a) nd σ) (3 * a) i = chunk xs (3 * a) (σ i) := by
  have hf : ∀ i, i < nd →
      (if h : i < nd then chunk xs (3 * a) (σ ⟨i, h⟩) else []).length = 3 * a := by
    intro i hi
    rw [dif_pos hi]
    apply chunk_length
    have hs : ((σ ⟨i, hi⟩ : Fin nd) : Nat) + 1 ≤ nd := (σ ⟨i, hi⟩).isLt
    exact le_trans (Nat.mul_le_mul_right _ hs) (by rw [Nat.mul_comm]; exact hq)
  obtain ⟨hl, hc⟩ := chunk_flatMap
    (fun i => if h : i < nd then chunk xs (3 * a) (σ ⟨i, h⟩) else []) (3 * a) nd hf
  refine ⟨?_, fun i => ?_⟩
  · unfold permute_blocks
    rw [hl]
    have e : nd * (3 * a) = 3 * nd * a := by ring
    rw [e]
    exact Nat.mul_div_cancel_left a (by omega)
  · unfold permute_blocks
    rw [hc i i.isLt]
    simp

end permute

/-- C8: permutation invariance.  Assume `make_G`, `predict` and `cal_switch` act on each
configuration on its own (`PerConfiguration`).  For `nd ≥ 1` and a permutation `σ` of the `nd`
configurations, the call on the buffers whose configuration blocks (of `3 a1` values of `xyz1`
and `3 a2` values of `xyz2`) are reordered by `σ` returns, in exact arithmetic, the energy of the
call on the original buffers. -/
theorem get_eng_2h2o_perm_invariant {R GM X P C : Type} [CommSemiring R]
    (env : Collab R GM X P C) (Good : bpnn_t R GM X P C → Prop) (natom : Nat)
    (atomE : Nat → List R → R) (sw : List R → R) (slot slot' : Option (bpnn_t R GM X P C))
    (nd : Nat) (σ : Equiv.Perm (Fin nd)) (xyz1 xyz2 : List R) (atoms1 atoms2 : List String)
    (hind : PerConfiguration env (passed_labels atoms1 atoms2) Good natom atomE sw)
    (hgood : Good (evaluator env slot)) (hgood' : Good (evaluator env slot'))
    (hnd : 0 < nd) (hsz : 3 * nd < SIZE_MOD)
    (h1 : xyz1.length / (3 * nd) ≤ INT_MAX) (h2 : xyz2.length / (3 * nd) ≤ INT_MAX) :
    ∃ r r', get_eng_2h2o env slot nd xyz1 xyz2 atoms1 atoms2 = some r ∧
      get_eng_2h2o env slot' nd
        (permute_blocks xyz1 (3 * (xyz1.length / (3 * nd))) nd σ)
        (permute_blocks xyz2 (3 * (xyz2.length / (3 * nd))) nd σ) atoms1 atoms2 = some r' ∧
      r'.energy = r.energy := by
  obtain ⟨r, _, hr, _, _, hen⟩ := get_eng_2h2o_per_config env Good natom atomE sw slot nd
    xyz1 xyz2 atoms1 atoms2 hind hgood hnd hsz h1 h2
  have q1 : 3 * (xyz1.length / (3 * nd)) * nd ≤ xyz1.length := by
    have := Nat.div_mul_le_self xyz1.length (3 * nd)
    nlinarith
  have q2 : 3 * (xyz2.length / (3 * nd)) * nd ≤ xyz2.length := by
    have := Nat.div_mul_le_self xyz2.length (3 * nd)
    nlinarith
  obtain ⟨d1, c1⟩ := permute_blocks_spec xyz1 (xyz1.length / (3 * nd)) nd σ hnd q1
  obtain ⟨d2, c2⟩ := permute_blocks_spec xyz2 (xyz2.length / (3 * nd)) nd σ hnd q2
  obtain ⟨r', _, hr', _, _, hen'⟩ := get_eng_2h2o_per_config env Good natom atomE sw slot' nd
    (permute_blocks xyz1 (3 * (xyz1.length / (3 * nd))) nd σ)
    (permute_blocks xyz2 (3 * (xyz2.length / (3 * nd))) nd σ) atoms1 atoms2 hind hgood'
    hnd hsz (by rw [d1]; exact h1) (by rw [d2]; exact h2)
  refine ⟨r, r', hr, hr', ?_⟩
  rw [hen', hen, d1, d2, Finset.sum_range, Finset.sum_range]
  congr 1
  simp only [c1, c2]
  exact Equiv.sum_comp σ (fun j : Fin nd => config_term natom atomE sw
    (chunk xyz1 (3 * (xyz1.length / (3 * nd))) j ++
      chunk xyz2 (3 * (xyz2.length / (3 * nd))) j))

/-- Witness of C8: the two configurations of the concrete batch, swapped. -/
theorem get_eng_2h2o_perm_invariant_witness :
    (PerConfiguration demo (passed_labels [] []) demo_good 6 demo_atomE demo_sw ∧
      demo_good (evaluator demo none) ∧ 0 < 2 ∧ 3 * 2 < SIZE_MOD ∧
      demo_xyz1.length / (3 * 2) ≤ INT_MAX ∧ demo_xyz2.length / (3 * 2) ≤ INT_MAX) ∧
    ∃ r r', get_eng_2h2o demo none 2 demo_xyz1 demo_xyz2 [] [] = some r ∧
      get_eng_2h2o demo none 2
        (permute_blocks demo_xyz1 (3 * (demo_xyz1.length / (3 * 2))) 2 (Equiv.swap 0 1))
        (permute_blocks demo_xyz2 (3 * (demo_xyz2.length / (3 * 2))) 2 (Equiv.swap 0 1))
        [] [] = some r' ∧
      r'.energy = r.energy :=
  ⟨⟨demo_per_configuration _, demo_good_fresh, by decide, by decide, by decide, by decide⟩,
   get_eng_2h2o_perm_invariant demo demo_good 6 demo_atomE demo_sw none none 2
     (Equiv.swap 0 1) demo_xyz1 demo_xyz2 [] [] (demo_per_configuration _) demo_good_fresh
     demo_good_fresh (by decide) (by decide) (by decide) (by decide)⟩

/-! ## Calls without labels for molecule 1 -/

section nolabels

variable {R GM X P C : Type}

/-- With an empty `atoms1` the opening of the overloads does not look at `atoms2`. -/
theorem gather_nil_labels (nd : Nat) (xyz1 xyz2 : List R) (atoms2 : List String) :
    gather nd xyz1 xyz2 [] atoms2 = gather nd xyz1 xyz2 [] [] := by
  unfold gather label_check
  rfl

theorem gather_nil_labels_out (nd : Nat) (xyz1 xyz2 : List R) (atoms2 : List String)
    (inp : Gathered R) (hg : gather nd xyz1 xyz2 [] atoms2 = some inp) :
    inp.warnings = [] ∧ inp.atoms = [] := by
  obtain ⟨hw, ha⟩ := gather_labels nd xyz1 xyz2 [] atoms2 inp hg
  rw [hw, ha]
  exact ⟨rfl, rfl⟩

/-- The constructor writes no consistency warning and loads no coordinates. -/
theorem ctor_log_quiet (env : Collab R GM X P C) (tag : String) :
    Event.cerr " Molecule 1 type inconsistent! " ∉ (bpnn_t.ctor env tag).2 ∧
    Event.cerr " Molecule 2 type inconsistent! " ∉ (bpnn_t.ctor env tag).2 ∧
    ∀ nd allxyz labels,
      Event.load_xyz_and_type_from_vectors nd allxyz labels ∉ (bpnn_t.ctor env tag).2 := by
  unfold bpnn_t.ctor
  split
  · refine ⟨by simp, by simp, fun _ _ _ => by simp⟩
  · split
    · refine ⟨by simp, by simp, fun _ _ _ => by simp⟩
    · refine ⟨by simp, by simp, fun _ _ _ => by simp⟩

theorem static_log_quiet (env : Collab R GM X P C) (tag : String)
    (slot : Option (bpnn_t R GM X P C)) :
    Event.cerr " Molecule 1 type inconsistent! " ∉ (static_local (bpnn_t.ctor env tag) slot).2 ∧
    Event.cerr " Molecule 2 type inconsistent! " ∉ (static_local (bpnn_t.ctor env tag) slot).2 ∧
    ∀ nd allxyz labels, Event.load_xyz_and_type_from_vectors nd allxyz labels
      ∉ (static_local (bpnn_t.ctor env tag) slot).2 := by
  cases slot with
  | none => exact ctor_log_quiet env tag
  | some obj => exact ⟨by simp [static_local], by simp [static_local],
      fun _ _ _ => by simp [static_local]⟩

end nolabels

/-- C14: with an empty `atoms1`, whatever `atoms2` holds: every returning call of either
coordinate-vector overload hands the empty label list to `load_xyz_and_type_from_vectors` (and
no other label list), writes neither consistency warning, and is in everything (result, state,
log) the call with `atoms2` empty as well.  Both calls do return for every `nd ≥ 1` whose triple
fits `size_t` and whose atom counts fit `int`. -/
theorem get_eng_2h2o_empty_labels {R GM X P C : Type} [Zero R] [Add R] [Mul R]
    (env : Collab R GM X P C) (slot slot_g : Option (bpnn_t R GM X P C)) (nd : Nat)
    (xyz1 xyz2 grad1 grad2 : List R) (atoms2 : List String) :
    (∀ r, get_eng_2h2o env slot nd xyz1 xyz2 [] atoms2 = some r →
      (∃ allxyz, Event.load_xyz_and_type_from_vectors nd allxyz [] ∈ r.log) ∧
      (∀ nd' allxyz labels,
        Event.load_xyz_and_type_from_vectors nd' allxyz labels ∈ r.log → labels = []) ∧
      Event.cerr " Molecule 1 type inconsistent! " ∉ r.log ∧
      Event.cerr " Molecule 2 type inconsistent! " ∉ r.log) ∧
    (∀ g, get_eng_2h2o_grad env slot_g nd xyz1 xyz2 grad1 grad2 [] atoms2 = some g →
      (∃ allxyz, Event.load_xyz_and_type_from_vectors nd allxyz [] ∈ g.log) ∧
      (∀ nd' allxyz labels,
        Event.load_xyz_and_type_from_vectors nd' allxyz labels ∈ g.log → labels = []) ∧
      Event.cerr " Molecule 1 type inconsistent! " ∉ g.log ∧
      Event.cerr " Molecule 2 type inconsistent! " ∉ g.log) ∧
    get_eng_2h2o env slot nd xyz1 xyz2 [] atoms2 = get_eng_2h2o env slot nd xyz1 xyz2 [] [] ∧
    get_eng_2h2o_grad env slot_g nd xyz1 xyz2 grad1 grad2 [] atoms2
      = get_eng_2h2o_grad env slot_g nd xyz1 xyz2 grad1 grad2 [] [] ∧
    (0 < nd → 3 * nd < SIZE_MOD → xyz1.length / (3 * nd) ≤ INT_MAX →
      xyz2.length / (3 * nd) ≤ INT_MAX →
      ∃ r g, get_eng_2h2o env slot nd xyz1 xyz2 [] atoms2 = some r ∧
        get_eng_2h2o_grad env slot_g nd xyz1 xyz2 grad1 grad2 [] atoms2 = some g) := by
  refine ⟨?_, ?_, ?_, ?_, ?_⟩
  · intro r hr
    obtain ⟨inp, hg⟩ := gather_of_get_eng_2h2o env slot nd xyz1 xyz2 [] atoms2 r hr
    obtain ⟨r', hr', _, _, _, _, hl⟩ := get_eng_2h2o_eq env slot nd xyz1 xyz2 [] atoms2 inp hg
    have e : r = r' := Option.some.inj (hr.symm.trans hr')
    obtain ⟨hw, ha⟩ := gather_nil_labels_out nd xyz1 xyz2 atoms2 inp hg
    obtain ⟨q1, q2, q3⟩ := static_log_quiet env "2h2o_default" slot
    rw [e, hl, hw, ha, predict_sweep_log]
    refine ⟨⟨inp.allxyz, by simp⟩, ?_, by simp [q1], by simp [q2]⟩
    intro nd' allxyz labels hmem
    simp only [List.mem_append, List.mem_cons, List.mem_map, List.not_mem_nil, or_false,
      false_or, q3, reduceCtorEq, and_false, exists_false, List.mem_singleton] at hmem
    exact (Event.load_xyz_and_type_from_vectors.inj hmem).2.2
  · intro g hgs
    obtain ⟨inp, hg⟩ :=
      gather_of_get_eng_2h2o_grad env slot_g nd xyz1 xyz2 grad1 grad2 [] atoms2 g hgs
    obtain ⟨g', hg', _, _, hl, _⟩ :=
      get_eng_2h2o_grad_eq env slot_g nd xyz1 xyz2 grad1 grad2 [] atoms2 inp hg
    have e : g = g' := Option.some.inj (hgs.symm.trans hg')
    obtain ⟨hw, ha⟩ := gather_nil_labels_out nd xyz1 xyz2 atoms2 inp hg
    obtain ⟨q1, q2, q3⟩ := static_log_quiet env "2h2o_default" slot_g
    rw [e, hl, hw, ha]
    refine ⟨⟨inp.allxyz, by simp⟩, ?_, by simp [q1], by simp [q2]⟩
    intro nd' allxyz labels hmem
    simp only [List.mem_append, List.mem_cons, List.mem_flatMap, List.not_mem_nil, or_false,
      false_or, q3, reduceCtorEq, and_false, exists_false, List.mem_singleton] at hmem
    exact (Event.load_xyz_and_type_from_vectors.inj hmem).2.2
  · unfold get_eng_2h2o
    rw [gather_nil_labels]
  · unfold get_eng_2h2o_grad
    rw [gather_nil_labels]
  · intro hnd hsz h1 h2
    have hg := gather_eq nd xyz1 xyz2 [] atoms2 hnd hsz h1 h2
    obtain ⟨r, hr, _⟩ := get_eng_2h2o_eq env slot nd xyz1 xyz2 [] atoms2 _ hg
    obtain ⟨g, hgr, _⟩ :=
      get_eng_2h2o_grad_eq env slot_g nd xyz1 xyz2 grad1 grad2 [] atoms2 _ hg
    exact ⟨r, g, hr, hgr⟩

/-- Witness of C14: three labels for molecule 2 and none for molecule 1. -/
theorem get_eng_2h2o_empty_labels_witness :
    (0 < 2 ∧ 3 * 2 < SIZE_MOD ∧ demo_xyz1.length / (3 * 2) ≤ INT_MAX ∧
      demo_xyz2.length / (3 * 2) ≤ INT_MAX) ∧
    ∃ r g, get_eng_2h2o demo none 2 demo_xyz1 demo_xyz2 [] ["O", "H", "H"] = some r ∧
      get_eng_2h2o_grad demo none 2 demo_xyz1 demo_xyz2 [] [] [] ["O", "H", "H"] = some g ∧
      (∃ allxyz, Event.load_xyz_and_type_from_vectors 2 allxyz [] ∈ r.log) ∧
      Event.cerr " Molecule 2 type inconsistent! " ∉ r.log ∧
      (∃ allxyz, Event.load_xyz_and_type_from_vectors 2 allxyz [] ∈ g.log) ∧
      Event.cerr " Molecule 2 type inconsistent! " ∉ g.log := by
  refine ⟨⟨by decide, by decide, by decide, by decide⟩, ?_⟩
  obtain ⟨hr_all, hg_all, _, _, hret⟩ :=
    get_eng_2h2o_empty_labels demo none none 2 demo_xyz1 demo_xyz2 [] [] ["O", "H", "H"]
  obtain ⟨r, g, hr, hg⟩ := hret (by decide) (by decide) (by decide) (by decide)
  obtain ⟨r1, _, _, r4⟩ := hr_all r hr
  obtain ⟨g1, _, _, g4⟩ := hg_all g hg
  exact ⟨r, g, hr, hg, r1, r4, g1, g4⟩

/-! ## The output vectors grow -/

/-- The copy loop appends `3 a1 nd` values to `grad1` and `3 a2 nd` values to `grad2`. -/
theorem deinterleave_appends {R : Type} (pool : Nat → R) (a1 a2 nd : Nat)
    (grad1 grad2 : List R) :
    ∃ new1 new2,
      (deinterleave pool a1 a2 nd (0, grad1, grad2)).2 = (grad1 ++ new1, grad2 ++ new2) ∧
      new1.length = 3 * a1 * nd ∧ new2.length = 3 * a2 * nd := by
  have h := deinterleave_eq pool a1 a2 nd 0 grad1 grad2
  simp only [Nat.zero_mul, Nat.zero_add, ← List.range_eq_range'] at h
  obtain ⟨l1, _⟩ := chunk_flatMap
    (fun i => (List.range (3 * a1)).map (fun k => pool (i * (3 * (a1 + a2)) + k)))
    (3 * a1) nd (fun i _ => by simp)
  obtain ⟨l2, _⟩ := chunk_flatMap
    (fun i => (List.range (3 * a2)).map (fun k => pool (i * (3 * (a1 + a2)) + 3 * a1 + k)))
    (3 * a2) nd (fun i _ => by simp)
  refine ⟨_, _, by rw [h], ?_, ?_⟩
  · rw [l1]; ring
  · rw [l2]; ring

/-- C13: the gradient-returning overload appends and never clears.  Whenever it returns, `grad1`
is its contents before the call followed by exactly `3 a1 nd` new values and `grad2` is its
contents before the call followed by exactly `3 a2 nd` new values, `a1` and `a2` being the atom
counts the call computed.  The call does return for every `nd ≥ 1` whose triple fits `size_t`
and whose atom counts fit `int`, and then `a1 = |xyz1| / (3 nd)` and `a2 = |xyz2| / (3 nd)`. -/
theorem get_eng_2h2o_grad_appends {R GM X P C : Type} [Zero R] [Add R] [Mul R]
    (env : Collab R GM X P C) (slot : Option (bpnn_t R GM X P C)) (nd : Nat)
    (xyz1 xyz2 grad1 grad2 : List R) (atoms1 atoms2 : List String) :
    (∀ g, get_eng_2h2o_grad env slot nd xyz1 xyz2 grad1 grad2 atoms1 atoms2 = some g →
      ∃ inp new1 new2, gather nd xyz1 xyz2 atoms1 atoms2 = some inp ∧
        g.grad1 = grad1 ++ new1 ∧ new1.length = 3 * inp.a1 * nd ∧
        g.grad2 = grad2 ++ new2 ∧ new2.length = 3 * inp.a2 * nd) ∧
    (0 < nd → 3 * nd < SIZE_MOD → xyz1.length / (3 * nd) ≤ INT_MAX →
      xyz2.length / (3 * nd) ≤ INT_MAX →
      ∃ g inp, get_eng_2h2o_grad env slot nd xyz1 xyz2 grad1 grad2 atoms1 atoms2 = some g ∧
        gather nd xyz1 xyz2 atoms1 atoms2 = some inp ∧
        inp.a1 = xyz1.length / (3 * nd) ∧ inp.a2 = xyz2.length / (3 * nd)) := by
  constructor
  · intro g hgs
    obtain ⟨inp, hg⟩ :=
      gather_of_get_eng_2h2o_grad env slot nd xyz1 xyz2 grad1 grad2 atoms1 atoms2 g hgs
    obtain ⟨g', hg', _, _, _, _, hout⟩ :=
      get_eng_2h2o_grad_eq env slot nd xyz1 xyz2 grad1 grad2 atoms1 atoms2 inp hg
    have e : g = g' := Option.some.inj (hgs.symm.trans hg')
    obtain ⟨new1, new2, hd, hl1, hl2⟩ :=
      deinterleave_appends g'.obj.gf.dfdxyz.pool inp.a1 inp.a2 nd grad1 grad2
    rw [hd] at hout
    refine ⟨inp, new1, new2, hg, ?_, hl1, ?_, hl2⟩
    · rw [e]; exact congrArg Prod.fst hout
    · rw [e]; exact congrArg Prod.snd hout
  · intro hnd hsz h1 h2
    have hg := gather_eq nd xyz1 xyz2 atoms1 atoms2 hnd hsz h1 h2
    obtain ⟨g, hgr, _⟩ :=
      get_eng_2h2o_grad_eq env slot nd xyz1 xyz2 grad1 grad2 atoms1 atoms2 _ hg
    exact ⟨g, _, hgr, hg, rfl, rfl⟩

/-- Witness of C13: a batch of two dimers on output vectors that already hold three values and
one value; 18 values are appended to each. -/
theorem get_eng_2h2o_grad_appends_witness :
    (0 < 2 ∧ 3 * 2 < SIZE_MOD ∧ demo_xyz1.length / (3 * 2) ≤ INT_MAX ∧
      demo_xyz2.length / (3 * 2) ≤ INT_MAX) ∧
    ∃ g new1 new2,
      get_eng_2h2o_grad demo none 2 demo_xyz1 demo_xyz2 [5, 5, 5] [7] [] [] = some g ∧
      g.grad1 = [5, 5, 5] ++ new1 ∧ new1.length = 3 * 3 * 2 ∧
      g.grad2 = [7] ++ new2 ∧ new2.length = 3 * 3 * 2 := by
  refine ⟨⟨by decide, by decide, by decide, by decide⟩, ?_⟩
  obtain ⟨hall, hret⟩ :=
    get_eng_2h2o_grad_appends demo none 2 demo_xyz1 demo_xyz2 [5, 5, 5] [7] [] []
  obtain ⟨g, inp, hg, _, ha1, ha2⟩ := hret (by decide) (by decide) (by decide) (by decide)
  obtain ⟨inp', new1, new2, hin', h1, hl1, h2, hl2⟩ := hall g hg
  have hin : gather 2 demo_xyz1 demo_xyz2 [] [] = some inp := by assumption
  have e : inp' = inp := Option.some.inj (hin'.symm.trans hin)
  rw [e, ha1] at hl1
  rw [e, ha2] at hl2
  exact ⟨g, new1, new2, hg, h1, hl1, h2, hl2⟩

/-! ## The entries of the combined coordinate buffer -/

section buffer

variable {R : Type}

/-- A block of `m` values among the first `n` blocks only depends on the first `n * m`
values. -/
theorem chunk_take (xs : List R) (m n i : Nat) (hi : i < n) :
    chunk (xs.take (n * m)) m i = chunk xs m i := by
  unfold chunk
  rw [List.drop_take, List.take_take]
  congr 1
  have h : (i + 1) * m ≤ n * m := Nat.mul_le_mul_right m hi
  have e : (i + 1) * m = i * m + m := by ring
  omega

theorem chunk_congr_take (xs ys : List R) (m n i : Nat) (hi : i < n)
    (h : ys.take (n * m) = xs.take (n * m)) : chunk ys m i = chunk xs m i := by
  rw [← chunk_take ys m n i hi, h, chunk_take xs m n i hi]

/-- Length and entries of the buffer put together from `nd` blocks of `3 a1` values of `xyz1`
and `3 a2` values of `xyz2`. -/
theorem woven_entries (xyz1 xyz2 : List R) (a1 a2 nd : Nat)
    (q1 : 3 * a1 * nd ≤ xyz1.length) (q2 : 3 * a2 * nd ≤ xyz2.length) :
    ((List.range nd).flatMap fun i =>
        chunk xyz1 (3 * a1) i ++ chunk xyz2 (3 * a2) i).length = 3 * nd * (a1 + a2) ∧
    (∀ i j c, i < nd → j < a1 → c < 3 →
      3 * (i * a1 + j) + c < xyz1.length ∧
      ((List.range nd).flatMap fun i =>
          chunk xyz1 (3 * a1) i ++ chunk xyz2 (3 * a2) i)[3 * (i * (a1 + a2) + j) + c]?
        = xyz1[3 * (i * a1 + j) + c]?) ∧
    (∀ i j c, i < nd → a1 ≤ j → j < a1 + a2 → c < 3 →
      3 * (i * a2 + (j - a1)) + c < xyz2.length ∧
      ((List.range nd).flatMap fun i =>
          chunk xyz1 (3 * a1) i ++ chunk xyz2 (3 * a2) i)[3 * (i * (a1 + a2) + j) + c]?
        = xyz2[3 * (i * a2 + (j - a1)) + c]?) := by
  have b1 : ∀ i, i < nd → (i + 1) * (3 * a1) ≤ xyz1.length := fun i hi =>
    le_trans (Nat.mul_le_mul_right _ hi) (by rw [Nat.mul_comm]; exact q1)
  have b2 : ∀ i, i < nd → (i + 1) * (3 * a2) ≤ xyz2.length := fun i hi =>
    le_trans (Nat.mul_le_mul_right _ hi) (by rw [Nat.mul_comm]; exact q2)
  have hlen : ∀ i, i < nd →
      (chunk xyz1 (3 * a1) i ++ chunk xyz2 (3 * a2) i).length = 3 * a1 + 3 * a2 := by
    intro i hi
    rw [List.length_append, chunk_length _ _ _ (b1 i hi), chunk_length _ _ _ (b2 i hi)]
  obtain ⟨hl, hc⟩ := chunk_flatMap
    (fun i => chunk xyz1 (3 * a1) i ++ chunk xyz2 (3 * a2) i) (3 * a1 + 3 * a2) nd hlen
  refine ⟨by rw [hl]; ring, ?_, ?_⟩
  · intro i j c hi hj hc3
    have hk : 3 * j + c < 3 * a1 + 3 * a2 := by omega
    have hk1 : 3 * j + c < (chunk xyz1 (3 * a1) i).length := by
      rw [chunk_length _ _ _ (b1 i hi)]; omega
    have e : 3 * (i * (a1 + a2) + j) + c = i * (3 * a1 + 3 * a2) + (3 * j + c) := by ring
    have e' : 3 * (i * a1 + j) + c = i * (3 * a1) + (3 * j + c) := by ring
    constructor
    · have := b1 i hi
      have e2 : (i + 1) * (3 * a1) = i * (3 * a1) + 3 * a1 := by ring
      omega
    · rw [e, ← chunk_getElem? _ (3 * a1 + 3 * a2) i (3 * j + c) hk, hc i hi]
      show (chunk xyz1 (3 * a1) i ++ chunk xyz2 (3 * a2) i)[3 * j + c]? = _
      rw [List.getElem?_append_left hk1, chunk_getElem? _ _ _ _ (by omega), e']
  · intro i j c hi hj1 hj2 hc3
    have hk : 3 * j + c < 3 * a1 + 3 * a2 := by omega
    have hk1 : (chunk xyz1 (3 * a1) i).length ≤ 3 * j + c := by
      rw [chunk_length _ _ _ (b1 i hi)]; omega
    have hk2 : 3 * j + c - 3 * a1 = 3 * (j - a1) + c := by omega
    have e : 3 * (i * (a1 + a2) + j) + c = i * (3 * a1 + 3 * a2) + (3 * j + c) := by ring
    have e' : 3 * (i * a2 + (j - a1)) + c = i * (3 * a2) + (3 * (j - a1) + c) := by ring
    constructor
    · have := b2 i hi
      have e2 : (i + 1) * (3 * a2) = i * (3 * a2) + 3 * a2 := by ring
      omega
    · rw [e, ← chunk_getElem? _ (3 * a1 + 3 * a2) i (3 * j + c) hk, hc i hi]
      show (chunk xyz1 (3 * a1) i ++ chunk xyz2 (3 * a2) i)[3 * j + c]? = _
      rw [List.getElem?_append_right hk1, chunk_length _ _ _ (b1 i hi), hk2,
        chunk_getElem? _ _ _ _ (by omega), e']

/-- Values of `xyz1` from index `3 nd a1` on and of `xyz2` from index `3 nd a2` on play no part
in what the opening of the overloads computes. -/
theorem gather_ignores_tail (nd : Nat) (xyz1 xyz2 xyz1' xyz2' : List R)
    (atoms1 atoms2 : List String) (hnd : 0 < nd) (hsz : 3 * nd < SIZE_MOD)
    (h1 : xyz1.length / (3 * nd) ≤ INT_MAX) (h2 : xyz2.length / (3 * nd) ≤ INT_MAX)
    (hl1 : xyz1'.length = xyz1.length) (hl2 : xyz2'.length = xyz2.length)
    (ht1 : xyz1'.take (3 * nd * (xyz1.length / (3 * nd)))
      = xyz1.take (3 * nd * (xyz1.length / (3 * nd))))
    (ht2 : xyz2'.take (3 * nd * (xyz2.length / (3 * nd)))
      = xyz2.take (3 * nd * (xyz2.length / (3 * nd)))) :
    gather nd xyz1' xyz2' atoms1 atoms2 = gather nd xyz1 xyz2 atoms1 atoms2 := by
  rw [gather_eq nd xyz1 xyz2 atoms1 atoms2 hnd hsz h1 h2,
    gather_eq nd xyz1' xyz2' atoms1 atoms2 hnd hsz (by rw [hl1]; exact h1)
      (by rw [hl2]; exact h2), hl1, hl2]
  have e1 : 3 * nd * (xyz1.length / (3 * nd)) = nd * (3 * (xyz1.length / (3 * nd))) := by ring
  have e2 : 3 * nd * (xyz2.length / (3 * nd)) = nd * (3 * (xyz2.length / (3 * nd))) := by ring
  rw [e1] at ht1
  rw [e2] at ht2
  have hfm : ((List.range nd).flatMap fun i =>
        chunk xyz1' (3 * (xyz1.length / (3 * nd))) i ++
          chunk xyz2' (3 * (xyz2.length / (3 * nd))) i)
      = (List.range nd).flatMap fun i =>
        chunk xyz1 (3 * (xyz1.length / (3 * nd))) i ++
          chunk xyz2 (3 * (xyz2.length / (3 * nd))) i := by
    apply List.flatMap_congr
    intro i hi
    have hi' : i < nd := List.mem_range.mp hi
    rw [chunk_congr_take xyz1 xyz1' _ nd i hi' ht1, chunk_congr_take xyz2 xyz2' _ nd i hi' ht2]
  rw [hfm]

end buffer

/-- C12 as stated fails: `nd = 6148914691236517206` is at least 1 and a value of `size_t`, but
`3 * nd` wraps to 2, so for a two-element `xyz1` the source computes `a1 = 2 / 2 = 1` where the
claim has `a1 = 0`, and the first pass of the inner loop reads `xyz1[2]`, past the end: the call
has no defined result and passes no buffer.  Likewise with `nd = 1` and `3 * 2^31` values in
`xyz1`: `a1 = 2^31` is more than the counter `int j` can reach. -/
theorem combined_buffer_overrun :
    (1 ≤ 6148914691236517206 ∧ 6148914691236517206 < SIZE_MOD) ∧
    3 * 6148914691236517206 % SIZE_MOD = 2 ∧
    ([1, 2] : List ℤ).length / (3 * 6148914691236517206) = 0 ∧
    ([1, 2] : List ℤ).length / (3 * 6148914691236517206 % SIZE_MOD) = 1 ∧
    push3 ([1, 2] : List ℤ) (0, []) = none ∧
    (gather 6148914691236517206 ([1, 2] : List ℤ) [] [] []).isNone = true ∧
    (get_eng_2h2o demo none 6148914691236517206 [1, 2] [] [] []).isNone = true ∧
    (get_eng_2h2o_grad demo none 6148914691236517206 [1, 2] [] [] [] [] []).isNone = true ∧
    gather 1 (List.replicate (3 * 2 ^ 31) (0 : ℤ)) [] [] [] = none := by
  refine ⟨⟨by decide, by decide⟩, by decide, by decide, by decide, by decide, by decide!,
    by decide!, by decide!, ?_⟩
  have h0 : ¬ (3 * 1 % SIZE_MOD = 0) := by decide
  have h1 : INT_MAX < (3 * 2 ^ 31) / (3 * 1 % SIZE_MOD) := by decide
  unfold gather
  simp only [List.length_replicate, h0, h1, if_false, true_or, if_true]

/-- C12, amended: for every `nd ≥ 1` whose triple fits `size_t`, with `a1 = |xyz1| / (3 nd)` and
`a2 = |xyz2| / (3 nd)` not above `INT_MAX`, both coordinate-vector overloads return, and the
one buffer they pass to `load_xyz_and_type_from_vectors` has length `3 nd (a1 + a2)`; its entry
at `3 (i (a1 + a2) + j) + c` is `xyz1[3 (i a1 + j) + c]` for `j < a1` and
`xyz2[3 (i a2 + (j - a1)) + c]` for `a1 ≤ j < a1 + a2`, both indices being in bounds; and
replacing the values of `xyz1` from index `3 nd a1` on, or of `xyz2` from `3 nd a2` on, changes
nothing. -/
theorem get_eng_2h2o_combined_buffer {R GM X P C : Type} [Zero R] [Add R] [Mul R]
    (env : Collab R GM X P C) (slot slot_g : Option (bpnn_t R GM X P C)) (nd : Nat)
    (xyz1 xyz2 grad1 grad2 : List R) (atoms1 atoms2 : List String)
    (hnd : 0 < nd) (hsz : 3 * nd < SIZE_MOD)
    (h1 : xyz1.length / (3 * nd) ≤ INT_MAX) (h2 : xyz2.length / (3 * nd) ≤ INT_MAX) :
    ∃ r g allxyz, get_eng_2h2o env slot nd xyz1 xyz2 atoms1 atoms2 = some r ∧
      get_eng_2h2o_grad env slot_g nd xyz1 xyz2 grad1 grad2 atoms1 atoms2 = some g ∧
      Event.load_xyz_and_type_from_vectors nd allxyz (passed_labels atoms1 atoms2) ∈ r.log ∧
      Event.load_xyz_and_type_from_vectors nd allxyz (passed_labels atoms1 atoms2) ∈ g.log ∧
      (∀ nd' a l, Event.load_xyz_and_type_from_vectors nd' a l ∈ r.log → a = allxyz) ∧
      (∀ nd' a l, Event.load_xyz_and_type_from_vectors nd' a l ∈ g.log → a = allxyz) ∧
      allxyz.length = 3 * nd * (xyz1.length / (3 * nd) + xyz2.length / (3 * nd)) ∧
      (∀ i j c, i < nd → j < xyz1.length / (3 * nd) → c < 3 →
        3 * (i * (xyz1.length / (3 * nd)) + j) + c < xyz1.length ∧
        allxyz[3 * (i * (xyz1.length / (3 * nd) + xyz2.length / (3 * nd)) + j) + c]?
          = xyz1[3 * (i * (xyz1.length / (3 * nd)) + j) + c]?) ∧
      (∀ i j c, i < nd → xyz1.length / (3 * nd) ≤ j →
        j < xyz1.length / (3 * nd) + xyz2.length / (3 * nd) → c < 3 →
        3 * (i * (xyz2.length / (3 * nd)) + (j - xyz1.length / (3 * nd))) + c < xyz2.length ∧
        allxyz[3 * (i * (xyz1.length / (3 * nd) + xyz2.length / (3 * nd)) + j) + c]?
          = xyz2[3 * (i * (xyz2.length / (3 * nd)) + (j - xyz1.length / (3 * nd))) + c]?) ∧
      (∀ xyz1' xyz2' : List R, xyz1'.length = xyz1.length → xyz2'.length = xyz2.length →
        xyz1'.take (3 * nd * (xyz1.length / (3 * nd)))
          = xyz1.take (3 * nd * (xyz1.length / (3 * nd))) →
        xyz2'.take (3 * nd * (xyz2.length / (3 * nd)))
          = xyz2.take (3 * nd * (xyz2.length / (3 * nd))) →
        get_eng_2h2o env slot nd xyz1' xyz2' atoms1 atoms2
          = get_eng_2h2o env slot nd xyz1 xyz2 atoms1 atoms2 ∧
        get_eng_2h2o_grad env slot_g nd xyz1' xyz2' grad1 grad2 atoms1 atoms2
          = get_eng_2h2o_grad env slot_g nd xyz1 xyz2 grad1 grad2 atoms1 atoms2) := by
  have hg := gather_eq nd xyz1 xyz2 atoms1 atoms2 hnd hsz h1 h2
  obtain ⟨r, hr, _, _, _, _, hrl⟩ := get_eng_2h2o_eq env slot nd xyz1 xyz2 atoms1 atoms2 _ hg
  obtain ⟨g, hgr, _, _, hgl, _⟩ :=
    get_eng_2h2o_grad_eq env slot_g nd xyz1 xyz2 grad1 grad2 atoms1 atoms2 _ hg
  simp only [label_check_snd] at hrl hgl
  have q1 : 3 * (xyz1.length / (3 * nd)) * nd ≤ xyz1.length := by
    have := Nat.div_mul_le_self xyz1.length (3 * nd)
    nlinarith
  have q2 : 3 * (xyz2.length / (3 * nd)) * nd ≤ xyz2.length := by
    have := Nat.div_mul_le_self xyz2.length (3 * nd)
    nlinarith
  obtain ⟨wl, w1, w2⟩ := woven_entries xyz1 xyz2 (xyz1.length / (3 * nd))
    (xyz2.length / (3 * nd)) nd q1 q2
  obtain ⟨_, _, s3⟩ := static_log_quiet env "2h2o_default" slot
  obtain ⟨_, _, t3⟩ := static_log_quiet env "2h2o_default" slot_g
  have c3 : ∀ nd' (a : List R) l, Event.load_xyz_and_type_from_vectors nd' a l
      ∉ (label_check (R := R) (xyz1.length / (3 * nd)) (xyz2.length / (3 * nd))
        atoms1 atoms2).1 := by
    intro nd' a l
    unfold label_check
    split
    · simp
    · split <;> split <;> simp
  refine ⟨r, g, _, hr, hgr, ?_, ?_, ?_, ?_, wl, w1, w2, ?_⟩
  · rw [hrl]; simp
  · rw [hgl]; simp
  · intro nd' a l hmem
    rw [hrl, predict_sweep_log] at hmem
    simp only [List.mem_append, List.mem_cons, List.mem_map, List.not_mem_nil, or_false,
      false_or, s3, c3, reduceCtorEq, and_false, exists_false, List.mem_singleton] at hmem
    exact (Event.load_xyz_and_type_from_vectors.inj hmem).2.1
  · intro nd' a l hmem
    rw [hgl] at hmem
    simp only [List.mem_append, List.mem_cons, List.mem_flatMap, List.not_mem_nil, or_false,
      false_or, t3, c3, reduceCtorEq, and_false, exists_false, List.mem_singleton] at hmem
    exact (Event.load_xyz_and_type_from_vectors.inj hmem).2.1
  · intro xyz1' xyz2' hl1 hl2 ht1 ht2
    have hgt := gather_ignores_tail nd xyz1 xyz2 xyz1' xyz2' atoms1 atoms2 hnd hsz h1 h2
      hl1 hl2 ht1 ht2
    unfold get_eng_2h2o get_eng_2h2o_grad
    rw [hgt]
    exact ⟨rfl, rfl⟩

/-- Witness of amended C12: two configurations of the concrete instance. -/
theorem get_eng_2h2o_combined_buffer_witness :
    (0 < 2 ∧ 3 * 2 < SIZE_MOD ∧ demo_xyz1.length / (3 * 2) ≤ INT_MAX ∧
      demo_xyz2.length / (3 * 2) ≤ INT_MAX) ∧
    ∃ r allxyz, get_eng_2h2o demo none 2 demo_xyz1 demo_xyz2 [] [] = some r ∧
      Event.load_xyz_and_type_from_vectors 2 allxyz (passed_labels [] []) ∈ r.log ∧
      allxyz.length = 3 * 2 * (demo_xyz1.length / (3 * 2) + demo_xyz2.length / (3 * 2)) := by
  refine ⟨⟨by decide, by decide, by decide, by decide⟩, ?_⟩
  obtain ⟨r, g, allxyz, hr, _, hmem, _, _, _, hlen, _⟩ :=
    get_eng_2h2o_combined_buffer demo none none 2 demo_xyz1 demo_xyz2 [] [] [] []
      (by decide) (by decide) (by decide) (by decide)
  exact ⟨r, allxyz, hr, hmem, hlen⟩

/-! ## How often the model is loaded -/

section loads

variable {R GM X P C : Type}

theorem filter_isLoad_nil_of (l : List (Event R)) (h : ∀ e, e ∈ l → e.isLoad = false) :
    l.filter Event.isLoad = [] := by
  rw [List.filter_eq_nil_iff]
  intro e he
  rw [h e he]
  exact Bool.false_ne_true

theorem label_check_no_load (a1 a2 : Nat) (atoms1 atoms2 : List String) :
    (label_check (R := R) a1 a2 atoms1 atoms2).1.filter Event.isLoad = [] := by
  unfold label_check
  split
  · rfl
  · split <;> split <;> rfl

theorem predict_events_no_load (f : Nat → Nat) (n : Nat) :
    ((List.range n).map (fun atom => (Event.predict (f atom) atom : Event R))).filter
      Event.isLoad = [] := by
  apply filter_isLoad_nil_of
  intro e he
  obtain ⟨a, _, rfl⟩ := List.mem_map.mp he
  rfl

theorem backward_events_no_load (f : Nat → Nat) (n : Nat) :
    ((List.range n).map (fun atom => (Event.backward (f atom) atom : Event R))).filter
      Event.isLoad = [] := by
  apply filter_isLoad_nil_of
  intro e he
  obtain ⟨a, _, rfl⟩ := List.mem_map.mp he
  rfl

theorem pair_events_no_load (f : Nat → Nat) (n : Nat) :
    ((List.range n).flatMap (fun atom =>
      [(Event.predict (f atom) atom : Event R), Event.backward (f atom) atom])).filter
      Event.isLoad = [] := by
  apply filter_isLoad_nil_of
  intro e he
  obtain ⟨a, _, ha⟩ := List.mem_flatMap.mp he
  simp only [List.mem_cons, List.mem_singleton, List.not_mem_nil, or_false] at ha
  rcases ha with rfl | rfl <;> rfl

/-- The static evaluator of a coordinate-vector overload loads the model when it is built and
at no other time. -/
theorem static_loads (env : Collab R GM X P C) (slot : Option (bpnn_t R GM X P C)) :
    (static_local (bpnn_t.ctor env "2h2o_default") slot).2.filter Event.isLoad
      = if slot.isNone then model_loads R 2 else [] := by
  cases slot with
  | none => rfl
  | some obj => rfl

/-- A call of the overload without gradients loads the model only through the construction
of its static evaluator. -/
theorem get_eng_2h2o_loads [Zero R] [Add R] [Mul R] (env : Collab R GM X P C)
    (slot : Option (bpnn_t R GM X P C)) (nd : Nat) (xyz1 xyz2 : List R)
    (atoms1 atoms2 : List String) (r : Call R GM X P C)
    (hr : get_eng_2h2o env slot nd xyz1 xyz2 atoms1 atoms2 = some r) :
    r.log.filter Event.isLoad = if slot.isNone then model_loads R 2 else [] := by
  obtain ⟨inp, hg⟩ := gather_of_get_eng_2h2o env slot nd xyz1 xyz2 atoms1 atoms2 r hr
  obtain ⟨r', hr', _, _, _, _, hl⟩ := get_eng_2h2o_eq env slot nd xyz1 xyz2 atoms1 atoms2 inp hg
  have e : r = r' := Option.some.inj (hr.symm.trans hr')
  rw [e, hl, predict_sweep_log, (gather_labels nd xyz1 xyz2 atoms1 atoms2 inp hg).1]
  simp only [List.filter_append, static_loads, label_check_no_load, predict_events_no_load,
    List.nil_append, List.append_nil]
  simp [Event.isLoad]

/-- A call of the gradient-returning overload loads the model only through the construction of
its static evaluator. -/
theorem get_eng_2h2o_grad_loads [Zero R] [Add R] [Mul R] (env : Collab R GM X P C)
    (slot : Option (bpnn_t R GM X P C)) (nd : Nat) (xyz1 xyz2 grad1 grad2 : List R)
    (atoms1 atoms2 : List String) (g : GradCall R GM X P C)
    (hgs : get_eng_2h2o_grad env slot nd xyz1 xyz2 grad1 grad2 atoms1 atoms2 = some g) :
    g.log.filter Event.isLoad = if slot.isNone then model_loads R 2 else [] := by
  obtain ⟨inp, hg⟩ :=
    gather_of_get_eng_2h2o_grad env slot nd xyz1 xyz2 grad1 grad2 atoms1 atoms2 g hgs
  obtain ⟨g', hg', _, _, hl, _⟩ :=
    get_eng_2h2o_grad_eq env slot nd xyz1 xyz2 grad1 grad2 atoms1 atoms2 inp hg
  have e : g = g' := Option.some.inj (hgs.symm.trans hg')
  rw [e, hl, (gather_labels nd xyz1 xyz2 atoms1 atoms2 inp hg).1]
  simp only [List.filter_append, static_loads, label_check_no_load, pair_events_no_load,
    List.nil_append, List.append_nil]
  simp [Event.isLoad]

/-- Calls of the overload without gradients on an evaluator that exists load nothing. -/
theorem calls_2h2o_later [Zero R] [Add R] [Mul R] (env : Collab R GM X P C)
    (args : List (VecArgs R)) :
    ∀ (obj : bpnn_t R GM X P C) (p : Option (bpnn_t R GM X P C) × List (Event R)),
      calls_2h2o env args (some obj) = some p → p.2.filter Event.isLoad = [] := by
  induction args with
  | nil =>
    intro obj p h
    rw [← Option.some.inj h]
    rfl
  | cons a rest ih =>
    intro obj p h
    rw [calls_2h2o] at h
    cases hr : get_eng_2h2o env (some obj) a.nd a.xyz1 a.xyz2 a.atoms1 a.atoms2 with
    | none => rw [hr] at h; exact absurd h (by simp)
    | some r =>
      rw [hr, Option.some_bind] at h
      cases hq : calls_2h2o env rest (some r.obj) with
      | none => rw [hq] at h; exact absurd h (by simp)
      | some q =>
        rw [hq, Option.map_some'] at h
        rw [← Option.some.inj h, List.filter_append, ih r.obj q hq,
          get_eng_2h2o_loads env (some obj) _ _ _ _ _ r hr]
        rfl

/-- Over `n ≥ 1` successive calls of the overload without gradients, started before the static
evaluator exists, the model is loaded exactly once: one `load_seq`, one `load_paramfile`, one
`load_scale` and one `init_allNNs`, all in the construction at the first call. -/
theorem calls_2h2o_loads [Zero R] [Add R] [Mul R] (env : Collab R GM X P C)
    (a : VecArgs R) (rest : List (VecArgs R))
    (p : Option (bpnn_t R GM X P C) × List (Event R))
    (h : calls_2h2o env (a :: rest) none = some p) :
    p.2.filter Event.isLoad = model_loads R 2 := by
  rw [calls_2h2o] at h
  cases hr : get_eng_2h2o env none a.nd a.xyz1 a.xyz2 a.atoms1 a.atoms2 with
  | none => rw [hr] at h; exact absurd h (by simp)
  | some r =>
    rw [hr, Option.some_bind] at h
    cases hq : calls_2h2o env rest (some r.obj) with
    | none => rw [hq] at h; exact absurd h (by simp)
    | some q =>
      rw [hq, Option.map_some'] at h
      rw [← Option.some.inj h, List.filter_append, calls_2h2o_later env rest r.obj q hq,
        get_eng_2h2o_loads env none _ _ _ _ _ r hr]
      rfl

/-- Calls of the gradient-returning overload on an evaluator that exists load nothing. -/
theorem calls_2h2o_grad_later [Zero R] [Add R] [Mul R] (env : Collab R GM X P C)
    (args : List (VecArgs R)) :
    ∀ (obj : bpnn_t R GM X P C) (grad1 grad2 : List R)
      (p : (Option (bpnn_t R GM X P C) × List R × List R) × List (Event R)),
      calls_2h2o_grad env args (some obj, grad1, grad2) = some p →
        p.2.filter Event.isLoad = [] := by
  induction args with
  | nil =>
    intro obj grad1 grad2 p h
    rw [← Option.some.inj h]
    rfl
  | cons a rest ih =>
    intro obj grad1 grad2 p h
    rw [calls_2h2o_grad] at h
    cases hr : get_eng_2h2o_grad env (some obj) a.nd a.xyz1 a.xyz2 grad1 grad2 a.atoms1
        a.atoms2 with
    | none => rw [hr] at h; exact absurd h (by simp)
    | some g =>
      rw [hr, Option.some_bind] at h
      cases hq : calls_2h2o_grad env rest (some g.obj, g.grad1, g.grad2) with
      | none => rw [hq] at h; exact absurd h (by simp)
      | some q =>
        rw [hq, Option.map_some'] at h
        rw [← Option.some.inj h, List.filter_append, ih g.obj g.grad1 g.grad2 q hq,
          get_eng_2h2o_grad_loads env (some obj) _ _ _ _ _ _ _ g hr]
        rfl

/-- Over `n ≥ 1` successive calls of the gradient-returning overload, started before the static
evaluator exists, the model is loaded exactly once, in the construction at the first call. -/
theorem calls_2h2o_grad_loads [Zero R] [Add R] [Mul R] (env : Collab R GM X P C)
    (a : VecArgs R) (rest : List (VecArgs R)) (grad1 grad2 : List R)
    (p : (Option (bpnn_t R GM X P C) × List R × List R) × List (Event R))
    (h : calls_2h2o_grad env (a :: rest) (none, grad1, grad2) = some p) :
    p.2.filter Event.isLoad = model_loads R 2 := by
  rw [calls_2h2o_grad] at h
  cases hr : get_eng_2h2o_grad env none a.nd a.xyz1 a.xyz2 grad1 grad2 a.atoms1 a.atoms2 with
  | none => rw [hr] at h; exact absurd h (by simp)
  | some g =>
    rw [hr, Option.some_bind] at h
    cases hq : calls_2h2o_grad env rest (some g.obj, g.grad1, g.grad2) with
    | none => rw [hq] at h; exact absurd h (by simp)
    | some q =>
      rw [hq, Option.map_some'] at h
      rw [← Option.some.inj h, List.filter_append,
        calls_2h2o_grad_later env rest g.obj g.grad1 g.grad2 q hq,
        get_eng_2h2o_grad_loads env none _ _ _ _ _ _ _ g hr]
      rfl

/-- The default-constructed static evaluator of a file entry point does nothing when it is
built. -/
theorem static_default_quiet (env : Collab R GM X P C) (slot : Option (bpnn_t R GM X P C)) :
    (static_local (bpnn_t.default env, []) slot).2 = [] := by
  cases slot with
  | none => rfl
  | some obj => rfl

/-- Every call of a file entry point loads the model in its body, whether its static evaluator
exists already or not. -/
theorem file_eval_loads [Zero R] [Add R] [Mul R] (env : Collab R GM X P C)
    (body switch_n dfdx_n : Nat) (slot : Option (bpnn_t R GM X P C)) (xyzfile : String)
    (ifgrad : Bool) :
    (file_eval env body switch_n dfdx_n slot xyzfile ifgrad).log.filter Event.isLoad
      = model_loads R body := by
  unfold file_eval
  cases ifgrad with
  | false =>
    simp only [Bool.false_eq_true, if_false, predict_sweep_log, static_default_quiet,
      List.nil_append, List.filter_append, predict_events_no_load, List.append_nil]
    rfl
  | true =>
    simp only [if_true, predict_sweep_log, backward_sweep_log, static_default_quiet,
      List.nil_append, List.filter_append, predict_events_no_load, backward_events_no_load,
      List.append_nil]
    rfl

/-- Over successive calls of a file entry point the model is loaded once per call. -/
theorem calls_file_loads [Zero R] [Add R] [Mul R] (env : Collab R GM X P C)
    (body switch_n dfdx_n : Nat) (files : List (String × Bool)) :
    ∀ slot : Option (bpnn_t R GM X P C),
      (calls_file (file_eval env body switch_n dfdx_n) files slot).2.filter Event.isLoad
        = files.flatMap (fun _ => model_loads R body) := by
  induction files with
  | nil => intro slot; rfl
  | cons a rest ih =>
    intro slot
    rw [calls_file, List.filter_append, file_eval_loads, ih, List.flatMap_cons]

end loads

/-- C11, for the entry points that read a file: every call of `get_eng_2h2o(xyzfile, ifgrad)`
and of `get_eng_3h2o(xyzfile, ifgrad)` runs `load_seq`, `load_paramfile`, `load_scale` and
`init_allNNs`, also when the static evaluator was built by an earlier call, and building that
evaluator loads nothing; so a sequence of calls loads the model once per call, twice over two
calls. On the integer instance, two successive calls of either coordinate-vector overload load
it once. -/
theorem file_entry_reloads_model {R GM X P C : Type} [Zero R] [Add R] [Mul R]
    (env : Collab R GM X P C) (obj : bpnn_t R GM X P C) (files : List (String × Bool))
    (slot : Option (bpnn_t R GM X P C)) (f g : String) (b c ifgrad : Bool) :
    (get_eng_2h2o_file env (some obj) f ifgrad).log.filter Event.isLoad = model_loads R 2 ∧
    (get_eng_3h2o env (some obj) f ifgrad).log.filter Event.isLoad = model_loads R 3 ∧
    (static_local (bpnn_t.default env, []) none).2 = [] ∧
    (calls_file (get_eng_2h2o_file env) files slot).2.filter Event.isLoad
      = files.flatMap (fun _ => model_loads R 2) ∧
    (calls_file (get_eng_3h2o env) files slot).2.filter Event.isLoad
      = files.flatMap (fun _ => model_loads R 3) ∧
    (calls_file (get_eng_2h2o_file env) [(f, b), (g, c)] none).2.filter Event.isLoad
      = model_loads R 2 ++ model_loads R 2 ∧
    (calls_file (get_eng_3h2o env) [(f, b), (g, c)] none).2.filter Event.isLoad
      = model_loads R 3 ++ model_loads R 3 ∧
    (calls_2h2o demo [demo_args, demo_args] none).map (fun p => p.2.filter Event.isLoad)
      = some (model_loads ℤ 2) ∧
    (calls_2h2o_grad demo [demo_args, demo_args] (none, [], [])).map
      (fun p => p.2.filter Event.isLoad) = some (model_loads ℤ 2) := by
  have h2 : get_eng_2h2o_file env = file_eval env 2 2 2 := rfl
  have h3 : get_eng_3h2o env = file_eval env 3 3 2 := rfl
  refine ⟨file_eval_loads env 2 2 2 _ f ifgrad, file_eval_loads env 3 3 2 _ f ifgrad, rfl,
    ?_, ?_, ?_, ?_, by decide!, by decide!⟩
  · rw [h2]; exact calls_file_loads env 2 2 2 files slot
  · rw [h3]; exact calls_file_loads env 3 3 2 files slot
  · rw [h2, calls_file_loads env 2 2 2]; rfl
  · rw [h3, calls_file_loads env 3 3 2]; rfl

end MBbpnnPlugin
